import Mathlib

/-!
# ecs-inventory: delivery target, report dispatch and per-cluster assembly

A shallow embedding of

* `pkg/connection/connection.go` and `internal/config/config.go` (`AnchoreInfo`, `IsValid`),
* `pkg/reporter/reporter.go` (`buildURL`, `Post`) together with the part of Go's `net/url`
  that `buildURL` runs (`url.Parse`, `(*URL).String`),
* `pkg/inventory/report.go` (`HandleReport`, `GetInventoryReportForCluster`,
  `GetInventoryReportsForRegion`).

Go strings are byte sequences.  Configuration fields are kept as `String`; the URL code works on
the UTF-8 bytes of the string (`goBytes`), each byte a natural number below 256.
-/

namespace ECSInventory

deriving instance DecidableEq for Except

/-- A Go string seen as its bytes. -/
abbrev GoString := List Nat

/-- UTF-8 encoding of one code point, as Go stores it in a string. -/
def utf8Char (c : Char) : List Nat :=
  let n := c.toNat
  if n < 128 then [n]
  else if n < 2048 then [192 + n / 64, 128 + n % 64]
  else if n < 65536 then [224 + n / 4096, 128 + n / 64 % 64, 128 + n % 64]
  else [240 + n / 262144, 128 + n / 4096 % 64, 128 + n / 64 % 64, 128 + n % 64]

/-- The bytes of a string. -/
def goBytes (s : String) : GoString := s.toList.flatMap utf8Char

/-! ## `pkg/connection` and `internal/config` -/

namespace connection

/-- Configurations for the HTTP Client itself (net/http). -/
structure HTTPConfig where
  Insecure : Bool
  TimeoutSeconds : Int
deriving DecidableEq, Repr

/-- Information for posting in-use image details to Anchore. -/
structure AnchoreInfo where
  URL : String
  User : String
  Password : String
  Account : String
  HTTP : HTTPConfig
deriving DecidableEq, Repr

/-- Return whether or not AnchoreDetails are specified (`connection.go`, lines 18-23). -/
def AnchoreInfo.IsValid (nextlinux : AnchoreInfo) : Bool :=
  nextlinux.URL != "" &&
    nextlinux.User != "" &&
    nextlinux.Password != ""

end connection

namespace config

/-- Configurations for the HTTP Client itself (net/http). -/
structure HTTPConfig where
  Insecure : Bool
  TimeoutSeconds : Int
deriving DecidableEq, Repr

/-- Information for posting in-use image details to Anchore. -/
structure AnchoreInfo where
  URL : String
  User : String
  Password : String
  Account : String
  HTTP : HTTPConfig
deriving DecidableEq, Repr

/-- Return whether or not AnchoreDetails are specified (`config.go`, lines 65-70). -/
def AnchoreInfo.IsValid (anchore : AnchoreInfo) : Bool :=
  anchore.URL != "" &&
    anchore.User != "" &&
    anchore.Password != ""

/-- The `connection.AnchoreInfo` with the same field values. -/
def AnchoreInfo.toConnection (a : AnchoreInfo) : connection.AnchoreInfo :=
  { URL := a.URL, User := a.User, Password := a.Password, Account := a.Account,
    HTTP := { Insecure := a.HTTP.Insecure, TimeoutSeconds := a.HTTP.TimeoutSeconds } }

end config

/-! ## Go's `strings` helpers used by `net/url` -/

namespace strings

/-- `strings.Cut(s, sep)` for a one-byte separator: the text before and after the first `sep`. -/
def Cut : GoString → Nat → GoString × GoString × Bool
  | [], _ => ([], [], false)
  | c :: cs, sep =>
    if c = sep then ([], cs, true)
    else
      let r := Cut cs sep
      if r.2.2 then (c :: r.1, r.2.1, true) else (c :: cs, [], false)

/-- `strings.HasPrefix`. -/
def HasPrefix (s pre : GoString) : Bool := pre.isPrefixOf s

/-- `strings.HasSuffix`. -/
def HasSuffix (s suf : GoString) : Bool := suf.isSuffixOf s

/-- `strings.Count(s, sep)` for a one-byte separator. -/
def Count (s : GoString) (sep : Nat) : Nat := s.count sep

/-- `strings.Contains(s, sep)` for a one-byte separator. -/
def Contains (s : GoString) (sep : Nat) : Bool := s.contains sep

/-- `strings.Index(s, sub)`: the first position where `sub` starts, `none` for -1. -/
def Index : GoString → GoString → Option Nat
  | [], sub => if sub.isEmpty then some 0 else none
  | c :: cs, sub =>
    if sub.isPrefixOf (c :: cs) then some 0
    else (Index cs sub).map (· + 1)

/-- `strings.LastIndex(s, sep)` for a one-byte separator, `none` for -1. -/
def LastIndex : GoString → Nat → Option Nat
  | [], _ => none
  | c :: cs, sep =>
    match LastIndex cs sep with
    | some i => some (i + 1)
    | none => if c = sep then some 0 else none

/-- `strings.ToLower` on ASCII text (its one caller passes a scheme, which `getScheme` has
restricted to ASCII letters, digits, `+`, `-` and `.`). -/
def ToLower (s : GoString) : GoString :=
  s.map (fun c => if 65 ≤ c ∧ c ≤ 90 then c + 32 else c)

end strings

/-! ## Go's `net/url`: `Parse` and `(*URL).String`

The functions of package `net/url` that `buildURL` runs, after the library's source (Go 1.20):
the same names, the same tests in the same order. -/

namespace url

/-- The escaping modes of `net/url`. -/
inductive encoding
  | encodePath
  | encodePathSegment
  | encodeHost
  | encodeZone
  | encodeUserPassword
  | encodeQueryComponent
  | encodeFragment
deriving DecidableEq, Repr

open encoding

/-- The errors `parse` and its helpers return. -/
inductive ParseError
  | invalidControlCharacter
  | emptyURL
  | missingProtocolScheme
  | invalidURIForRequest
  | firstPathSegmentColon
  | missingBracket
  | invalidPort (colonPort : GoString)
  | invalidUserinfo
  | EscapeError (s : GoString)
  | InvalidHostError (s : GoString)
deriving DecidableEq, Repr

/-- Go's `*url.Error`: the operation, the URL and the cause. -/
structure Error where
  Op : String
  URL : GoString
  Err : ParseError
deriving DecidableEq, Repr

/-- Go's `url.Userinfo`. -/
structure Userinfo where
  username : GoString
  password : GoString
  passwordSet : Bool
deriving DecidableEq, Repr

/-- Go's `url.URL`. -/
structure URL where
  Scheme : GoString := []
  Opaque : GoString := []
  User : Option Userinfo := none
  Host : GoString := []
  Path : GoString := []
  RawPath : GoString := []
  OmitHost : Bool := false
  ForceQuery : Bool := false
  RawQuery : GoString := []
  Fragment : GoString := []
  RawFragment : GoString := []
deriving DecidableEq, Repr

/-- ASCII letter. -/
def isAlpha (c : Nat) : Bool := (97 ≤ c && c ≤ 122) || (65 ≤ c && c ≤ 90)

/-- ASCII digit. -/
def isDigit (c : Nat) : Bool := 48 ≤ c && c ≤ 57

/-- Go's `ishex`. -/
def ishex (c : Nat) : Bool :=
  (48 ≤ c && c ≤ 57) || (97 ≤ c && c ≤ 102) || (65 ≤ c && c ≤ 70)

/-- Go's `unhex`. -/
def unhex (c : Nat) : Nat :=
  if 48 ≤ c ∧ c ≤ 57 then c - 48
  else if 97 ≤ c ∧ c ≤ 102 then c - 97 + 10
  else if 65 ≤ c ∧ c ≤ 70 then c - 65 + 10
  else 0

/-- Go's `upperhex[n]`, the table `"0123456789ABCDEF"`. -/
def upperhex (n : Nat) : Nat :=
  [48, 49, 50, 51, 52, 53, 54, 55, 56, 57, 65, 66, 67, 68, 69, 70].getD n 0

/-- Go's `shouldEscape(c, mode)`. -/
def shouldEscape (c : Nat) (mode : encoding) : Bool :=
  -- §2.3 Unreserved characters (alphanum)
  if isAlpha c || isDigit c then false
  -- §3.2.2 Host allows  ! $ & ' ( ) * + , ; = : [ ] < > "
  else if (mode = encodeHost ∨ mode = encodeZone) ∧
      c ∈ [33, 36, 38, 39, 40, 41, 42, 43, 44, 59, 61, 58, 91, 93, 60, 62, 34] then false
  -- §2.3 Unreserved characters (mark)  - _ . ~
  else if c ∈ [45, 95, 46, 126] then false
  -- §2.2 Reserved characters  $ & + , / : ; = ? @
  else if c ∈ [36, 38, 43, 44, 47, 58, 59, 61, 63, 64] then
    match mode with
    | encodePath => c == 63
    | encodePathSegment => c == 47 || c == 59 || c == 44 || c == 63
    | encodeUserPassword => c == 64 || c == 47 || c == 63 || c == 58
    | encodeQueryComponent => true
    | encodeFragment => false
    | _ => true
  -- in a fragment  ! ( ) *  stay
  else if mode = encodeFragment ∧ c ∈ [33, 40, 41, 42] then false
  -- Everything else must be escaped.
  else true

/-- First loop of Go's `unescape`: check the `%` escapes, count them (`n`) and note a `+`
(`hasPlus`). -/
def unescapeScan (mode : encoding) : GoString → Nat → Bool → Except ParseError (Nat × Bool)
  | [], n, hasPlus => .ok (n, hasPlus)
  | c :: rest, n, hasPlus =>
    if c = 37 then
      match rest with
      | a :: b :: rest2 =>
        if !ishex a || !ishex b then .error (.EscapeError [c, a, b])
        else if mode = encodeHost ∧ unhex a < 8 ∧ [c, a, b] ≠ [37, 50, 53] then
          .error (.EscapeError [c, a, b])
        else if mode = encodeZone ∧ [c, a, b] ≠ [37, 50, 53] ∧
            (unhex a <<< 4 ||| unhex b) ≠ 32 ∧
            shouldEscape (unhex a <<< 4 ||| unhex b) encodeHost then
          .error (.EscapeError [c, a, b])
        else unescapeScan mode rest2 (n + 1) hasPlus
      | _ => .error (.EscapeError (c :: rest))
    else if c = 43 then
      unescapeScan mode rest n (mode == encodeQueryComponent)
    else if (mode = encodeHost ∨ mode = encodeZone) ∧ c < 128 ∧ shouldEscape c encodeHost then
      .error (.InvalidHostError [c])
    else unescapeScan mode rest n hasPlus

/-- Second loop of Go's `unescape`: decode (runs only on text the first loop accepted, where two
hex digits follow every `%`). -/
def unescapeBuild (mode : encoding) : GoString → GoString
  | [] => []
  | c :: rest =>
    if c = 37 then
      match rest with
      | a :: b :: rest2 => (unhex a <<< 4 ||| unhex b) :: unescapeBuild mode rest2
      | _ => []
    else if c = 43 then
      (if mode = encodeQueryComponent then 32 else 43) :: unescapeBuild mode rest
    else c :: unescapeBuild mode rest

/-- Go's `unescape(s, mode)`. -/
def unescape (s : GoString) (mode : encoding) : Except ParseError GoString :=
  match unescapeScan mode s 0 false with
  | .error e => .error e
  | .ok (n, hasPlus) =>
    if n = 0 ∧ hasPlus = false then .ok s else .ok (unescapeBuild mode s)

/-- Go's `escape(s, mode)`. -/
def escape (s : GoString) (mode : encoding) : GoString :=
  s.flatMap fun c =>
    if c = 32 ∧ mode = encodeQueryComponent then [43]
    else if shouldEscape c mode then [37, upperhex (c >>> 4), upperhex (c &&& 15)]
    else [c]

/-- Go's `validEncoded(s, mode)`. -/
def validEncoded (s : GoString) (mode : encoding) : Bool :=
  s.all fun c =>
    -- ! $ & ' ( ) * + , ; = : @   and   [ ]   and   %
    if c ∈ [33, 36, 38, 39, 40, 41, 42, 43, 44, 59, 61, 58, 64, 91, 93, 37] then true
    else !shouldEscape c mode

/-- Go's `stringContainsCTLByte`. -/
def stringContainsCTLByte (s : GoString) : Bool := s.any fun b => b < 32 || b == 127

/-- Loop of Go's `getScheme`, at index `i` with `rest = rawURL[i:]`. -/
def getSchemeLoop (rawURL : GoString) : Nat → GoString → Except ParseError (GoString × GoString)
  | _, [] => .ok ([], rawURL)
  | i, c :: rest =>
    if isAlpha c then getSchemeLoop rawURL (i + 1) rest
    else if isDigit c || c == 43 || c == 45 || c == 46 then
      if i = 0 then .ok ([], rawURL) else getSchemeLoop rawURL (i + 1) rest
    else if c = 58 then
      if i = 0 then .error .missingProtocolScheme
      else .ok (rawURL.take i, rawURL.drop (i + 1))
    else .ok ([], rawURL)

/-- Go's `getScheme(rawURL)`: `(scheme, path)`. -/
def getScheme (rawURL : GoString) : Except ParseError (GoString × GoString) :=
  getSchemeLoop rawURL 0 rawURL

/-- Go's `validOptionalPort(port)`. -/
def validOptionalPort (port : GoString) : Bool :=
  match port with
  | [] => true
  | c :: rest => c == 58 && rest.all fun b => !(b < 48 || b > 57)

/-- Go's `validUserinfo(s)`. -/
def validUserinfo (s : GoString) : Bool :=
  s.all fun r =>
    isAlpha r || isDigit r ||
      -- - . _ : ~ ! $ & ' ( ) * + , ; = % @
      r ∈ [45, 46, 95, 58, 126, 33, 36, 38, 39, 40, 41, 42, 43, 44, 59, 61, 37, 64]

/-- Go's `parseHost(host)`. -/
def parseHost (host : GoString) : Except ParseError GoString :=
  let plain : Except ParseError GoString := unescape host encodeHost
  if strings.HasPrefix host [91] then
    -- Parse an IP-Literal in RFC 3986 and RFC 6874.
    match strings.LastIndex host 93 with
    | none => .error .missingBracket
    | some i =>
      let colonPort := host.drop (i + 1)
      if !validOptionalPort colonPort then .error (.invalidPort colonPort)
      else
        match strings.Index (host.take i) [37, 50, 53] with
        | some zone =>
          match unescape (host.take zone) encodeHost with
          | .error e => .error e
          | .ok host1 =>
            match unescape ((host.take i).drop zone) encodeZone with
            | .error e => .error e
            | .ok host2 =>
              match unescape (host.drop i) encodeHost with
              | .error e => .error e
              | .ok host3 => .ok (host1 ++ host2 ++ host3)
        | none => plain
  else
    match strings.LastIndex host 58 with
    | some i =>
      let colonPort := host.drop i
      if !validOptionalPort colonPort then .error (.invalidPort colonPort) else plain
    | none => plain

/-- Go's `parseAuthority(authority)`: `(user, host)`. -/
def parseAuthority (authority : GoString) : Except ParseError (Option Userinfo × GoString) :=
  match strings.LastIndex authority 64 with
  | none =>
    match parseHost authority with
    | .error e => .error e
    | .ok host => .ok (none, host)
  | some i =>
    match parseHost (authority.drop (i + 1)) with
    | .error e => .error e
    | .ok host =>
      let userinfo := authority.take i
      if !validUserinfo userinfo then .error .invalidUserinfo
      else if !strings.Contains userinfo 58 then
        match unescape userinfo encodeUserPassword with
        | .error e => .error e
        | .ok u => .ok (some { username := u, password := [], passwordSet := false }, host)
      else
        let c := strings.Cut userinfo 58
        match unescape c.1 encodeUserPassword with
        | .error e => .error e
        | .ok username =>
          match unescape c.2.1 encodeUserPassword with
          | .error e => .error e
          | .ok password =>
            .ok (some { username := username, password := password, passwordSet := true }, host)

/-- Go's `(*URL).setPath(p)`. -/
def URL.setPath (u : URL) (p : GoString) : Except ParseError URL :=
  match unescape p encodePath with
  | .error e => .error e
  | .ok path =>
    if p = escape path encodePath then .ok { u with Path := path, RawPath := [] }
    else .ok { u with Path := path, RawPath := p }

/-- Go's `(*URL).setFragment(f)`. -/
def URL.setFragment (u : URL) (f : GoString) : Except ParseError URL :=
  match unescape f encodeFragment with
  | .error e => .error e
  | .ok frag =>
    if f = escape frag encodeFragment then .ok { u with Fragment := frag, RawFragment := [] }
    else .ok { u with Fragment := frag, RawFragment := f }

/-- Go's `parse(rawURL, viaRequest)`. -/
def parse (rawURL : GoString) (viaRequest : Bool) : Except ParseError URL :=
  if stringContainsCTLByte rawURL then .error .invalidControlCharacter
  else if rawURL = [] ∧ viaRequest then .error .emptyURL
  else if rawURL = [42] then .ok { Path := [42] }
  else
    -- Split off possible leading "http:", "mailto:", etc.
    match getScheme rawURL with
    | .error e => .error e
    | .ok (scheme, rest0) =>
      let u : URL := { Scheme := strings.ToLower scheme }
      let q : URL × GoString :=
        if strings.HasSuffix rest0 [63] && strings.Count rest0 63 == 1 then
          ({ u with ForceQuery := true }, rest0.take (rest0.length - 1))
        else
          let c := strings.Cut rest0 63
          ({ u with RawQuery := c.2.1 }, c.1)
      let u := q.1
      let rest := q.2
      if !strings.HasPrefix rest [47] ∧ u.Scheme ≠ [] then
        -- We consider rootless paths per RFC 3986 as opaque.
        .ok { u with Opaque := rest }
      else if !strings.HasPrefix rest [47] ∧ viaRequest then .error .invalidURIForRequest
      else if !strings.HasPrefix rest [47] ∧ strings.Contains (strings.Cut rest 47).1 58 then
        -- First path segment has colon. Not allowed in relative URL.
        .error .firstPathSegmentColon
      else if (u.Scheme ≠ [] ∨ (!viaRequest ∧ !strings.HasPrefix rest [47, 47, 47])) ∧
          strings.HasPrefix rest [47, 47] then
        let a := rest.drop 2
        let authority := match strings.Index a [47] with
          | some i => a.take i
          | none => a
        let rest2 := match strings.Index a [47] with
          | some i => a.drop i
          | none => []
        match parseAuthority authority with
        | .error e => .error e
        | .ok (user, host) => URL.setPath { u with User := user, Host := host } rest2
      else if u.Scheme ≠ [] ∧ strings.HasPrefix rest [47] then
        -- OmitHost is set to true when rawURL has an empty host (authority).
        URL.setPath { u with OmitHost := true } rest
      else URL.setPath u rest

/-- Go's `url.Parse(rawURL)`. -/
def Parse (rawURL : GoString) : Except Error URL :=
  -- Cut off #frag
  let c := strings.Cut rawURL 35
  match parse c.1 false with
  | .error e => .error { Op := "parse", URL := c.1, Err := e }
  | .ok u =>
    if c.2.1 = [] then .ok u
    else
      match URL.setFragment u c.2.1 with
      | .error e => .error { Op := "parse", URL := rawURL, Err := e }
      | .ok u2 => .ok u2

/-- Go's `(*Userinfo).String()`. -/
def Userinfo.String (u : Userinfo) : GoString :=
  let s := escape u.username encodeUserPassword
  if u.passwordSet then s ++ [58] ++ escape u.password encodeUserPassword else s

/-- Go's `(*URL).EscapedPath()`. -/
def URL.EscapedPath (u : URL) : GoString :=
  let plain : GoString := if u.Path = [42] then [42] else escape u.Path encodePath
  if u.RawPath ≠ [] ∧ validEncoded u.RawPath encodePath then
    match unescape u.RawPath encodePath with
    | .ok p => if p = u.Path then u.RawPath else plain
    | .error _ => plain
  else plain

/-- Go's `(*URL).EscapedFragment()`. -/
def URL.EscapedFragment (u : URL) : GoString :=
  let plain : GoString := escape u.Fragment encodeFragment
  if u.RawFragment ≠ [] ∧ validEncoded u.RawFragment encodeFragment then
    match unescape u.RawFragment encodeFragment with
    | .ok f => if f = u.Fragment then u.RawFragment else plain
    | .error _ => plain
  else plain

/-- Go's `(*URL).String()`. -/
def URL.String (u : URL) : GoString :=
  let buf0 : GoString := if u.Scheme ≠ [] then u.Scheme ++ [58] else []
  let buf1 : GoString :=
    if u.Opaque ≠ [] then buf0 ++ u.Opaque
    else
      let auth : GoString :=
        if u.Scheme ≠ [] ∨ u.Host ≠ [] ∨ u.User ≠ none then
          if u.OmitHost ∧ u.Host = [] ∧ u.User = none then []
          else
            (if u.Host ≠ [] ∨ u.Path ≠ [] ∨ u.User ≠ none then [47, 47] else []) ++
            (match u.User with
              | some ui => Userinfo.String ui ++ [64]
              | none => []) ++
            (if u.Host ≠ [] then escape u.Host encodeHost else [])
        else []
      let path := URL.EscapedPath u
      let sep : GoString :=
        if path ≠ [] ∧ path.head? ≠ some 47 ∧ u.Host ≠ [] then [47] else []
      let buf := buf0 ++ auth ++ sep
      -- RFC 3986 §4.2: a first segment with a colon would be mistaken for a scheme
      let dot : GoString :=
        if buf = [] ∧ strings.Contains (strings.Cut path 47).1 58 then [46, 47] else []
      buf ++ dot ++ path
  let buf2 : GoString :=
    if u.ForceQuery ∨ u.RawQuery ≠ [] then buf1 ++ [63] ++ u.RawQuery else buf1
  if u.Fragment ≠ [] then buf2 ++ [35] ++ URL.EscapedFragment u else buf2

end url

/-! ## `pkg/reporter` -/

namespace reporter

/-- Modelled from the spec: the element type `Container` of a report is declared outside the
files at hand; the spec gives it a name, an image reference and an optional image digest. -/
structure Container where
  Name : String
  Image : String
  Digest : Option String
deriving DecidableEq, Repr

/-- Modelled from the spec: the element type `Task` (task metadata) is declared outside the files
at hand; the spec gives it an identifier and the cluster it belongs to. -/
structure Task where
  ARN : String
  ClusterARN : String
deriving DecidableEq, Repr

/-- Modelled from the spec: the element type `Service` (service metadata) is declared outside the
files at hand; the spec gives it an identifier, desired and running task counts and the
reference of a task definition. -/
structure Service where
  ARN : String
  DesiredCount : Int
  RunningCount : Int
  TaskDefinition : String
deriving DecidableEq, Repr

/-- The struct `reporter.Report`, with the fields the code at hand reads and writes.  A slice is
`none` when nil and `some l` otherwise. -/
structure Report where
  Timestamp : String := ""
  ClusterName : String := ""
  ClusterARN : String := ""
  Containers : Option (List Container) := none
  Tasks : Option (List Task) := none
  Services : Option (List Service) := none
deriving DecidableEq, Repr

/-- Go's `len` on a slice. -/
def len {α : Type} (s : Option (List α)) : Nat :=
  match s with
  | none => 0
  | some l => l.length

/-- The relevant part of an `*http.Response`. -/
structure Response where
  StatusCode : Int
  Status : String
deriving DecidableEq, Repr

/-- A Go `error` value. -/
inductive GoError
  /-- an error made by a collaborator (AWS SDK, `net/http`, `encoding/json`) -/
  | msg (text : String)
  /-- an error of `net/url` -/
  | url (e : url.Error)
  /-- `fmt.Errorf(text + ": %w", cause)` -/
  | wrap (text : String) (cause : GoError)
  /-- `fmt.Errorf(text + ": %+v", resp)` -/
  | response (text : String) (resp : Response)
deriving DecidableEq, Repr

/-- The `http.Client` that `Post` builds. -/
structure Client where
  InsecureSkipVerify : Bool
  TimeoutSeconds : Int
deriving DecidableEq, Repr

/-- The `http.Request` that `Post` builds. -/
structure Request where
  Method : String
  URL : GoString
  Body : GoString
  BasicAuth : String × String
  Header : List (String × String)
deriving DecidableEq, Repr

/-- The outcome `(resp, err)` of `client.Do(req)`: with a nil error there is a response; with an
error the response may or may not be nil. -/
inductive DoResult
  | ok (resp : Response)
  | failed (resp : Option Response) (err : GoError)
deriving DecidableEq, Repr

/-- Log levels of `internal/logger`. -/
inductive Level
  | Debug
  | Info
  | Error
deriving DecidableEq, Repr

/-- What the code does to the outside world, in order. -/
inductive Event
  /-- `logger.Log.<level>(msg, ...)` -/
  | log (level : Level) (msg : String)
  /-- the deferred `tracker.TrackFunctionTime(..., msg)` -/
  | track (msg : String)
  /-- `time.Now()` is read -/
  | now
  /-- `session.NewSession`, `checkAWSCredentials`, `fetchClusters` -/
  | newSession (region : String)
  | checkAWSCredentials (region : String)
  | fetchClusters (region : String)
  /-- the per-cluster reads -/
  | fetchTasksFromCluster (cluster : String)
  | fetchServicesFromCluster (cluster : String)
  | fetchServicesMetadata (cluster : String) (services : List String)
  | fetchTasksMetadata (cluster : String) (tasks : List String)
  | fetchContainersFromTasks (cluster : String) (tasks : List String)
  /-- `HandleReport(report, anchoreDetails, quiet, dryRun)` is entered -/
  | handleReport (report : Report) (details : connection.AnchoreInfo) (quiet dryRun : Bool)
  /-- `reporter.Post(report, details)` is entered -/
  | post (report : Report) (details : connection.AnchoreInfo)
  /-- `client.Do(req)` -/
  | httpDo (client : Client) (req : Request)
  /-- `reportToStdout(report)`: the report is encoded on `os.Stdout` -/
  | stdout (report : Report)
deriving DecidableEq, Repr

/-- The collaborators of the code at hand: every call that leaves the three packages, as the
answer it gives.  `cost` is the time a call takes on the caller's clock and `rfc3339` is
`t.UTC().Format(time.RFC3339)`. -/
structure World where
  /-- `json.Marshal(report)` -/
  Marshal : Report → Except GoError GoString
  /-- the error of `http.NewRequest(method, url, body)`, if any -/
  NewRequest : String → GoString → GoString → Option GoError
  /-- `client.Do(req)` -/
  Do : Client → Request → DoResult
  /-- the error of `enc.Encode(report)` on `os.Stdout`, if any -/
  Encode : Report → Option GoError
  /-- the error of `session.NewSession`, if any -/
  newSession : String → Option GoError
  checkAWSCredentials : String → Option GoError
  fetchClusters : String → Except GoError (List String)
  fetchTasksFromCluster : String → Except GoError (List String)
  fetchServicesFromCluster : String → Except GoError (List String)
  fetchServicesMetadata : String → List String → Except GoError (Option (List Service))
  fetchTasksMetadata : String → List String → Except GoError (Option (List Task))
  fetchContainersFromTasks : String → List String → Except GoError (Option (List Container))
  cost : Event → Nat
  rfc3339 : Nat → String

/-- The constant `ReportAPIPath = "v1/enterprise/ecs-inventory"`. -/
def ReportAPIPath : String := "v1/enterprise/ecs-inventory"

/-- The function `buildURL` (`reporter.go`, lines 68-77). -/
def buildURL (nextlinuxDetails : connection.AnchoreInfo) : Except url.Error GoString :=
  match url.Parse (goBytes nextlinuxDetails.URL) with
  | .error err => .error err
  | .ok nextlinuxURL =>
    .ok (url.URL.String { nextlinuxURL with Path := nextlinuxURL.Path ++ goBytes ReportAPIPath })

/-- The function `Post` (`reporter.go`, lines 23-66): the returned error and what it did. -/
def Post (w : World) (report : Report) (nextlinuxDetails : connection.AnchoreInfo) :
    Option GoError × List Event :=
  let deferred : List Event := [.track ("Posting Inventory Report for cluster " ++ report.ClusterARN)]
  let ev : List Event := [.log .Info "Reporting results to Anchore"]
  let client : Client :=
    { InsecureSkipVerify := nextlinuxDetails.HTTP.Insecure,
      TimeoutSeconds := nextlinuxDetails.HTTP.TimeoutSeconds }
  match buildURL nextlinuxDetails with
  | .error err => (some (.wrap "failed to build url" (.url err)), ev ++ deferred)
  | .ok nextlinuxURL =>
    match w.Marshal report with
    | .error err => (some (.wrap "failed to serialize results as JSON" err), ev ++ deferred)
    | .ok reqBody =>
      match w.NewRequest "POST" nextlinuxURL reqBody with
      | some err =>
        (some (.wrap "failed to build request to report data to Anchore" err), ev ++ deferred)
      | none =>
        let req : Request :=
          { Method := "POST", URL := nextlinuxURL, Body := reqBody,
            BasicAuth := (nextlinuxDetails.User, nextlinuxDetails.Password),
            Header := [("Content-Type", "application/json"),
                       ("x-nextlinux-account", nextlinuxDetails.Account)] }
        let ev := ev ++ [.httpDo client req]
        match w.Do client req with
        | .failed resp err =>
          match resp with
          | some r =>
            if r.StatusCode = 401 then
              (some (.wrap "failed to report data to Anchore, check credentials" err),
                ev ++ deferred)
            else (some (.wrap "failed to report data to Anchore" err), ev ++ deferred)
          | none => (some (.wrap "failed to report data to Anchore" err), ev ++ deferred)
        | .ok resp =>
          if resp.StatusCode < 200 ∨ resp.StatusCode > 299 then
            (some (.response "failed to report data to Anchore" resp), ev ++ deferred)
          else
            (none, ev ++ [.log .Debug "Successfully reported results to Anchore"] ++ deferred)

end reporter

/-! ## `pkg/inventory` -/

namespace inventory

open reporter

/-- The function `reportToStdout` (`report.go`, lines 20-29). -/
def reportToStdout (w : World) (report : Report) : Option GoError × List Event :=
  match w.Encode report with
  | some err => (some (.wrap "unable to show inventory" err), [.stdout report])
  | none => (none, [.stdout report])

/-- The function `HandleReport` (`report.go`, lines 31-47): the returned error and what it did. -/
def HandleReport (w : World) (report : Report) (anchoreDetails : connection.AnchoreInfo)
    (quiet dryRun : Bool) : Option GoError × List Event :=
  -- lines 43-46, after the switch
  let finish (ev : List Event) : Option GoError × List Event :=
    if !quiet then
      let r := reportToStdout w report
      (r.1, ev ++ r.2)
    else (none, ev)
  if dryRun then
    finish [.log .Info "Dry run specified, not reporting inventory"]
  else if anchoreDetails.IsValid then
    match Post w report anchoreDetails with
    | (some err, ev) =>
      (some (.wrap "unable to report Inventory to Anchore" err), .post report anchoreDetails :: ev)
    | (none, ev) => finish (.post report anchoreDetails :: ev)
  else
    finish [.log .Debug "Anchore details not specified, not reporting inventory"]

/-- The state of one run of `GetInventoryReportForCluster`: the report under construction, what
was done so far and the clock. -/
structure Progress where
  report : Report
  events : List Event
  clock : Nat
deriving DecidableEq, Repr

/-- One external call: it is recorded and the clock moves on by what the call costs. -/
def Progress.call (w : World) (s : Progress) (e : Event) : Progress :=
  { s with events := s.events ++ [e], clock := s.clock + w.cost e }

/-- A log line is recorded. -/
def Progress.log (s : Progress) (level : Level) (msg : String) : Progress :=
  { s with events := s.events ++ [.log level msg] }

/-- What `GetInventoryReportForCluster` returns, what it did, and the clock at its return. -/
structure ClusterRun where
  report : Report
  err : Option GoError
  events : List Event
  clock : Nat
deriving DecidableEq, Repr

/-- The run ends with an error: the zero `Report` is returned with it. -/
def Progress.fail (s : Progress) (err : GoError) : ClusterRun :=
  { report := {}, err := some err, events := s.events, clock := s.clock }

/-- The end of `GetInventoryReportForCluster` from the container fetch on (`report.go`,
lines 144-152). -/
def containersBlock (w : World) (cluster : String) (tasks : List String) (s : Progress) :
    ClusterRun :=
  let s := s.call w (.fetchContainersFromTasks cluster tasks)
  match w.fetchContainersFromTasks cluster tasks with
  | .error err => s.fail err
  | .ok containers =>
    let s := Progress.log { s with report := { s.report with Containers := containers } }
      .Info "Found containers in cluster"
    { report := s.report, err := none, events := s.events, clock := s.clock }

/-- The end of `GetInventoryReportForCluster` from the task count on (`report.go`,
lines 130-152). -/
def tasksBlock (w : World) (cluster : String) (metadata : Bool) (tasks : List String)
    (s : Progress) : ClusterRun :=
  -- Must be at least one task to continue
  if tasks.length = 0 then
    let s := s.log .Debug "No tasks found in cluster"
    { report := s.report, err := none, events := s.events, clock := s.clock }
  else
    let s := s.log .Debug "Found tasks in cluster"
    if metadata then
      let s := s.call w (.fetchTasksMetadata cluster tasks)
      match w.fetchTasksMetadata cluster tasks with
      | .error err => s.fail err
      | .ok taskMeta =>
        containersBlock w cluster tasks { s with report := { s.report with Tasks := taskMeta } }
    else containersBlock w cluster tasks s

/-- `GetInventoryReportForCluster` (`report.go`, lines 100-153), entered when the clock
reads `clock`. -/
def GetInventoryReportForCluster (w : World) (clock : Nat) (cluster : String) (metadata : Bool) :
    ClusterRun :=
  let s : Progress :=
    { report := { Timestamp := w.rfc3339 clock, ClusterName := cluster },
      events := [.log .Debug "Found cluster", .now],
      clock := clock }
  let s := s.call w (.fetchTasksFromCluster cluster)
  match w.fetchTasksFromCluster cluster with
  | .error err => s.fail err
  | .ok tasks =>
    if metadata then
      let s := s.call w (.fetchServicesFromCluster cluster)
      match w.fetchServicesFromCluster cluster with
      | .error err => s.fail err
      | .ok services =>
        if services.length = 0 then
          let s := s.log .Debug "No services found in cluster"
          tasksBlock w cluster metadata tasks { s with report := { s.report with Services := some [] } }
        else
          let s := s.call w (.fetchServicesMetadata cluster services)
          match w.fetchServicesMetadata cluster services with
          | .error err => s.fail err
          | .ok servicesMeta =>
            tasksBlock w cluster metadata tasks
              { s with report := { s.report with Services := servicesMeta } }
    else tasksBlock w cluster metadata tasks s

/-- The body of the goroutine that `GetInventoryReportsForRegion` starts for one cluster
(`report.go`, lines 76-93), entered when the clock reads `clock`: what it did, in order. -/
def clusterUnit (w : World) (clock : Nat) (anchoreDetails : connection.AnchoreInfo)
    (quiet dryRun metadata : Bool) (cluster : String) : List Event :=
  let run := GetInventoryReportForCluster w clock cluster metadata
  let ev := run.events ++
    (match run.err with
      | some _ => [Event.log .Error "Failed to get inventory report for cluster"]
      | none => [])
  -- Only report if there are containers present in the cluster
  if len run.report.Containers ≠ 0 then
    let h := HandleReport w run.report anchoreDetails quiet dryRun
    ev ++ [.handleReport run.report anchoreDetails quiet dryRun] ++ h.2 ++
      (match h.1 with
        | some _ => [Event.log .Error "Failed to report inventory for cluster"]
        | none => [])
  else ev

/-- What `GetInventoryReportsForRegion` returns and did: the error, the events of the calling
goroutine, and for each cluster, in the order of the listing, the events of its goroutine. -/
structure RegionRun where
  err : Option GoError
  events : List Event
  units : List (List Event)
deriving DecidableEq, Repr

/-- `GetInventoryReportsForRegion` (`report.go`, lines 49-98), entered when the clock reads
`clock`.  The goroutines are independent of one another: each starts from the clock reading at
the fan-out and runs on its own timeline; how their events interleave is left open. -/
def GetInventoryReportsForRegion (w : World) (clock : Nat) (region : String)
    (anchoreDetails : connection.AnchoreInfo) (quiet dryRun metadata : Bool) : RegionRun :=
  let ev : List Event :=
    [.log .Info "Getting Inventory Reports for region", .newSession region] ++
    (match w.newSession region with
      | some _ => [Event.log .Error "Failed to create AWS session"]
      | none => []) ++
    [.checkAWSCredentials region]
  let clock := clock + w.cost (.newSession region) + w.cost (.checkAWSCredentials region)
  match w.checkAWSCredentials region with
  | some err => { err := some err, events := ev, units := [] }
  | none =>
    let ev := ev ++ [.fetchClusters region]
    let clock := clock + w.cost (.fetchClusters region)
    match w.fetchClusters region with
    | .error err => { err := some err, events := ev, units := [] }
    | .ok clusters =>
      { err := none, events := ev,
        units := clusters.map (clusterUnit w clock anchoreDetails quiet dryRun metadata) }

/-- The reports with which a goroutine entered `HandleReport`, in order. -/
def handleReportCalls (events : List Event) : List Report :=
  events.filterMap fun e =>
    match e with
    | .handleReport report _ _ _ => some report
    | _ => none

/-- The reports with which `reporter.Post` was entered, in order. -/
def postCalls (events : List Event) : List Report :=
  events.filterMap fun e =>
    match e with
    | .post report _ => some report
    | _ => none

/-- The reports encoded on standard output, in order. -/
def stdoutWrites (events : List Event) : List Report :=
  events.filterMap fun e =>
    match e with
    | .stdout report => some report
    | _ => none

/-- The event is a container fetch. -/
def isFetchContainers : Event → Bool
  | .fetchContainersFromTasks _ _ => true
  | _ => false

/-- The event is a task-metadata fetch. -/
def isFetchTasksMetadata : Event → Bool
  | .fetchTasksMetadata _ _ => true
  | _ => false

/-- The event is a service listing. -/
def isFetchServices : Event → Bool
  | .fetchServicesFromCluster _ => true
  | _ => false

/-- The event is a service-metadata fetch. -/
def isFetchServicesMetadata : Event → Bool
  | .fetchServicesMetadata _ _ => true
  | _ => false

end inventory

/-! ## Shapes of URL text -/

namespace shape

/-- A byte that may follow the first letter of a scheme: a letter, a digit, `+`, `-` or `.`
(RFC 3986, §3.1). -/
def isSchemeByte (c : Nat) : Bool :=
  url.isAlpha c || url.isDigit c || c == 43 || c == 45 || c == 46

/-- A scheme as RFC 3986 writes it, in either case: a letter, then scheme bytes. -/
def isScheme (s : GoString) : Bool :=
  match s with
  | [] => false
  | c :: cs => url.isAlpha c && cs.all isSchemeByte

/-- No byte of the text is an upper-case letter. -/
def isLower (s : GoString) : Bool := s.all fun c => !(65 ≤ c && c ≤ 90)

/-- An unreserved byte of RFC 3986: a letter, a digit, `-`, `.`, `_` or `~`. -/
def isUnreserved (c : Nat) : Bool :=
  url.isAlpha c || url.isDigit c || c == 45 || c == 46 || c == 95 || c == 126

/-- A host name: one or more unreserved bytes. -/
def isHostName (h : GoString) : Bool := !h.isEmpty && h.all isUnreserved

/-- An optional port: nothing, or `:` and digits. -/
def isPort (p : GoString) : Bool :=
  match p with
  | [] => true
  | c :: ds => c == 58 && ds.all url.isDigit

/-- A path: empty, or `/` followed by unreserved bytes and `/`. -/
def isPath (p : GoString) : Bool :=
  match p with
  | [] => true
  | c :: cs => c == 47 && cs.all fun b => isUnreserved b || b == 47

/-- A query: bytes other than `#` and the control bytes. -/
def isQuery (q : GoString) : Bool := q.all fun b => 32 ≤ b && b != 127 && b != 35

/-- The text of an optional query: nothing, or `?` and the query. -/
def queryText : Option GoString → GoString
  | none => []
  | some q => 63 :: q

/-- An optional query whose bytes are query bytes. -/
def isOptQuery : Option GoString → Bool
  | none => true
  | some q => isQuery q

end shape

/-! ## Concrete inputs -/

namespace examples

open reporter inventory

/-- A delivery target with URL, user and password set. -/
def target : connection.AnchoreInfo :=
  { URL := "https://ancho.re", User := "admin", Password := "foobar", Account := "admin",
    HTTP := { Insecure := false, TimeoutSeconds := 10 } }

/-- The target `target` with another URL. -/
def targetAt (url : String) : connection.AnchoreInfo := { target with URL := url }

/-- One container. -/
def nginx : Container := { Name := "web", Image := "nginx:1.25", Digest := none }

/-- A report with one container. -/
def report : Report :=
  { Timestamp := "2023-05-01T10:00:00Z", ClusterName := "alpha", Containers := some [nginx] }

/-- A region with three clusters: `alpha` runs one task with one container, the task listing of
`beta` fails, `gamma` runs no task.  Every call takes one second, the clock counts the seconds
since 2023-05-01T10:00:00Z (printed rightly for the first minute), and the delivery endpoint
answers as `answer` says. -/
def world (answer : DoResult) : World :=
  { Marshal := fun _ => .ok (goBytes "{}")
    NewRequest := fun _ _ _ => none
    Do := fun _ _ => answer
    Encode := fun _ => none
    newSession := fun _ => none
    checkAWSCredentials := fun _ => none
    fetchClusters := fun _ => .ok ["alpha", "beta", "gamma"]
    fetchTasksFromCluster := fun c =>
      if c = "alpha" then .ok ["task-1"]
      else if c = "beta" then .error (.msg "AccessDeniedException")
      else .ok []
    fetchServicesFromCluster := fun _ => .ok ["svc-1"]
    fetchServicesMetadata := fun _ _ =>
      .ok (some [{ ARN := "svc-1", DesiredCount := 1, RunningCount := 1, TaskDefinition := "td" }])
    fetchTasksMetadata := fun c _ => .ok (some [{ ARN := "task-1", ClusterARN := c }])
    fetchContainersFromTasks := fun _ _ => .ok (some [nginx])
    cost := fun _ => 1
    rfc3339 := fun t =>
      "2023-05-01T10:00:" ++ String.mk [Char.ofNat (48 + t / 10 % 6), Char.ofNat (48 + t % 10)] ++ "Z" }

/-- The endpoint answers 200. -/
def accepted : DoResult := .ok { StatusCode := 200, Status := "200 OK" }

/-- The endpoint answers 401. -/
def unauthorized : DoResult := .ok { StatusCode := 401, Status := "401 Unauthorized" }

/-- The endpoint answers 500. -/
def serverError : DoResult := .ok { StatusCode := 500, Status := "500 Internal Server Error" }

/-- The connection is refused: no response, an error. -/
def refused : DoResult := .failed none (.msg "dial tcp: connect: connection refused")

end examples

/-! ## Theorems -/

section Theorems

open reporter inventory examples

theorem handleReportCalls_append (a b : List Event) :
    handleReportCalls (a ++ b) = handleReportCalls a ++ handleReportCalls b := by
  simp [handleReportCalls, List.filterMap_append]

theorem postCalls_append (a b : List Event) :
    postCalls (a ++ b) = postCalls a ++ postCalls b := by
  simp [postCalls, List.filterMap_append]

theorem stdoutWrites_append (a b : List Event) :
    stdoutWrites (a ++ b) = stdoutWrites a ++ stdoutWrites b := by
  simp [stdoutWrites, List.filterMap_append]

theorem handleReportCalls_cons (e : Event) (l : List Event) :
    handleReportCalls (e :: l) =
      (match e with
        | .handleReport report _ _ _ => [report]
        | _ => []) ++ handleReportCalls l := by
  cases e <;> rfl

theorem postCalls_cons (e : Event) (l : List Event) :
    postCalls (e :: l) =
      (match e with
        | .post report _ => [report]
        | _ => []) ++ postCalls l := by
  cases e <;> rfl

theorem stdoutWrites_cons (e : Event) (l : List Event) :
    stdoutWrites (e :: l) =
      (match e with
        | .stdout report => [report]
        | _ => []) ++ stdoutWrites l := by
  cases e <;> rfl

theorem handleReportCalls_nil : handleReportCalls [] = [] := rfl

theorem postCalls_nil : postCalls [] = [] := rfl

theorem stdoutWrites_nil : stdoutWrites [] = [] := rfl

/-- C1: a delivery target is valid exactly when URL, user and password are all non-empty;
the account and the HTTP settings never change the result; the definitions of `connection` and
of `config` agree on every input. -/
theorem isValid_iff_url_user_password (T : connection.AnchoreInfo) (C : config.AnchoreInfo) :
    (T.IsValid = true ↔ T.URL ≠ "" ∧ T.User ≠ "" ∧ T.Password ≠ "") ∧
    (∀ (account : String) (http : connection.HTTPConfig),
      connection.AnchoreInfo.IsValid { T with Account := account, HTTP := http } = T.IsValid) ∧
    (C.IsValid = true ↔ C.URL ≠ "" ∧ C.User ≠ "" ∧ C.Password ≠ "") ∧
    (∀ (account : String) (http : config.HTTPConfig),
      config.AnchoreInfo.IsValid { C with Account := account, HTTP := http } = C.IsValid) ∧
    C.IsValid = C.toConnection.IsValid ∧
    T.IsValid = config.AnchoreInfo.IsValid
      { URL := T.URL, User := T.User, Password := T.Password, Account := T.Account,
        HTTP := { Insecure := T.HTTP.Insecure, TimeoutSeconds := T.HTTP.TimeoutSeconds } } := by
  refine ⟨?_, ?_, ?_, ?_, ?_, ?_⟩
  · simp [connection.AnchoreInfo.IsValid, and_assoc]
  · intro _ _; rfl
  · simp [config.AnchoreInfo.IsValid, and_assoc]
  · intro _ _; rfl
  · rfl
  · rfl

/-- `Post` enters neither `Post` again, nor `HandleReport`, nor `reportToStdout`. -/
theorem Post_events (w : World) (report : Report) (d : connection.AnchoreInfo) :
    postCalls (Post w report d).2 = [] ∧ stdoutWrites (Post w report d).2 = [] ∧
      handleReportCalls (Post w report d).2 = [] := by
  unfold Post
  simp only []
  repeat' split
  all_goals simp [postCalls, stdoutWrites, handleReportCalls]

/-- What `reportToStdout` does: one encoding of the report on standard output. -/
theorem reportToStdout_events (w : World) (report : Report) :
    (reportToStdout w report).2 = [.stdout report] := by
  unfold reportToStdout
  split <;> rfl

/-- C2: `HandleReport` enters `reporter.Post` (once, with the report) exactly when dry-run is off
and the target is valid; with dry-run it never does; `quiet` does not change it; and an invalid
target without dry-run gives no error of its own (the returned error is that of the printing
step, nil when quiet). -/
theorem handleReport_posts_iff (w : World) (report : Report) (d : connection.AnchoreInfo)
    (quiet dryRun : Bool) :
    (postCalls (HandleReport w report d quiet dryRun).2 ≠ [] ↔
      (dryRun = false ∧ d.IsValid = true)) ∧
    postCalls (HandleReport w report d quiet dryRun).2 =
      (if dryRun = false ∧ d.IsValid = true then [report] else []) ∧
    postCalls (HandleReport w report d quiet true).2 = [] ∧
    postCalls (HandleReport w report d true dryRun).2 =
      postCalls (HandleReport w report d false dryRun).2 ∧
    (d.IsValid = false →
      (HandleReport w report d quiet false).1 =
        (if quiet = true then none else (reportToStdout w report).1)) := by
  have key : ∀ q dr, postCalls (HandleReport w report d q dr).2 =
      (if dr = false ∧ d.IsValid = true then [report] else []) := by
    intro q dr
    have hP := (Post_events w report d).1
    unfold HandleReport
    cases dr <;> cases q <;> cases hv : d.IsValid <;>
      simp [postCalls, reportToStdout_events] <;>
      (split <;> simp_all [postCalls])
  refine ⟨?_, key quiet dryRun, ?_, ?_, ?_⟩
  · rw [key]; split <;> simp_all
  · rw [key]; simp
  · rw [key, key]
  · intro hv
    unfold HandleReport
    cases quiet <;> simp [hv]

/-- C3, as stated, fails: with quiet off, dry-run off, a valid target and a refused connection,
`HandleReport` returns the delivery error and does not print the report. -/
theorem handleReport_failed_delivery_not_printed :
    (false = false ∧ target.IsValid = true) ∧
    (Post (world refused) report target).1 ≠ none ∧
    stdoutWrites (HandleReport (world refused) report target false false).2 = [] ∧
    (HandleReport (world refused) report target false false).1 =
      some (.wrap "unable to report Inventory to Anchore"
        (.wrap "failed to report data to Anchore"
          (.msg "dial tcp: connect: connection refused"))) := by
  decide

/-- C3, amended: `HandleReport` prints the report (once) exactly when quiet is off and the
delivery branch did not fail, that is unless dry-run is off, the target is valid and `Post`
returned an error; in that one case the wrapped delivery error is returned and nothing is
printed.  In every other case the returned error is that of the printing step. -/
theorem handleReport_prints_iff (w : World) (report : Report) (d : connection.AnchoreInfo)
    (quiet dryRun : Bool) :
    stdoutWrites (HandleReport w report d quiet dryRun).2 =
      (if quiet = false ∧ ¬ (dryRun = false ∧ d.IsValid = true ∧ (Post w report d).1 ≠ none)
        then [report] else []) ∧
    (HandleReport w report d quiet dryRun).1 =
      (if dryRun = false ∧ d.IsValid = true ∧ (Post w report d).1 ≠ none then
        (Post w report d).1.map (GoError.wrap "unable to report Inventory to Anchore")
      else if quiet = false then (reportToStdout w report).1
      else none) := by
  have hP := (Post_events w report d).2.1
  unfold HandleReport
  cases dryRun <;> cases quiet <;> cases hv : d.IsValid <;>
    simp [stdoutWrites, reportToStdout_events] <;>
    (rcases hp : Post w report d with ⟨_ | err, ev⟩ <;> simp_all [stdoutWrites])

/-- C6: where the exchange completes with a response of status 401, `Post` returns the generic
error built from the response, of the same form as for status 500, and not the
"check credentials" error; that error is kept for a 401 response that comes together with a
transport error. -/
theorem post_status_401_is_generic :
    (Post (world unauthorized) report target).1 =
      some (.response "failed to report data to Anchore"
        { StatusCode := 401, Status := "401 Unauthorized" }) ∧
    (Post (world serverError) report target).1 =
      some (.response "failed to report data to Anchore"
        { StatusCode := 500, Status := "500 Internal Server Error" }) ∧
    (Post (world refused) report target).1 =
      some (.wrap "failed to report data to Anchore"
        (.msg "dial tcp: connect: connection refused")) ∧
    (Post (world (.failed (some { StatusCode := 401, Status := "401 Unauthorized" })
        (.msg "redirect refused"))) report target).1 =
      some (.wrap "failed to report data to Anchore, check credentials"
        (.msg "redirect refused")) := by
  decide

/-- The report that `GetInventoryReportForCluster` returns next to an error is the zero
`Report`. -/
theorem GetInventoryReportForCluster_error_report (w : World) (clock : Nat) (cluster : String)
    (metadata : Bool) :
    (GetInventoryReportForCluster w clock cluster metadata).err ≠ none →
      (GetInventoryReportForCluster w clock cluster metadata).report = {} := by
  simp only [GetInventoryReportForCluster, tasksBlock, containersBlock, Progress.call,
    Progress.log, Progress.fail]
  repeat' split
  all_goals simp

/-- `HandleReport` enters `HandleReport` no further. -/
theorem HandleReport_events (w : World) (report : Report) (d : connection.AnchoreInfo)
    (quiet dryRun : Bool) :
    handleReportCalls (HandleReport w report d quiet dryRun).2 = [] := by
  have hP := (Post_events w report d).2.2
  unfold HandleReport
  cases dryRun <;> cases quiet <;> cases hv : d.IsValid <;>
    simp [reportToStdout_events] <;>
    first
      | rfl
      | (rcases hp : Post w report d with ⟨_ | err, ev⟩ <;>
          simp_all [handleReportCalls_append, handleReportCalls_cons, handleReportCalls_nil])

/-- The events of `GetInventoryReportForCluster` hold no entry into `HandleReport`, `Post` or
`reportToStdout`. -/
theorem GetInventoryReportForCluster_events (w : World) (clock : Nat) (cluster : String)
    (metadata : Bool) :
    handleReportCalls (GetInventoryReportForCluster w clock cluster metadata).events = [] ∧
    postCalls (GetInventoryReportForCluster w clock cluster metadata).events = [] ∧
    stdoutWrites (GetInventoryReportForCluster w clock cluster metadata).events = [] := by
  simp only [GetInventoryReportForCluster, tasksBlock, containersBlock, Progress.call,
    Progress.log, Progress.fail]
  repeat' split
  all_goals simp [handleReportCalls, postCalls, stdoutWrites]

/-- The report and the error of `GetInventoryReportForCluster` for one cluster depend only on
what the five reads answer for that cluster and on how the clock is printed. -/
theorem GetInventoryReportForCluster_reads (w v : World) (clock : Nat) (cluster : String)
    (metadata : Bool)
    (h1 : v.fetchTasksFromCluster cluster = w.fetchTasksFromCluster cluster)
    (h2 : v.fetchServicesFromCluster cluster = w.fetchServicesFromCluster cluster)
    (h3 : v.fetchServicesMetadata cluster = w.fetchServicesMetadata cluster)
    (h4 : v.fetchTasksMetadata cluster = w.fetchTasksMetadata cluster)
    (h5 : v.fetchContainersFromTasks cluster = w.fetchContainersFromTasks cluster)
    (h6 : v.rfc3339 = w.rfc3339) :
    (GetInventoryReportForCluster v clock cluster metadata).report =
      (GetInventoryReportForCluster w clock cluster metadata).report ∧
    (GetInventoryReportForCluster v clock cluster metadata).err =
      (GetInventoryReportForCluster w clock cluster metadata).err := by
  simp only [GetInventoryReportForCluster, tasksBlock, containersBlock, Progress.call,
    Progress.log, Progress.fail, h1, h2, h3, h4, h5, h6]
  repeat' split
  all_goals simp

/-- The reports with which the goroutine of one cluster enters `HandleReport`: the cluster's own
report, once, when it has a container, and none otherwise. -/
theorem clusterUnit_handleReportCalls (w : World) (clock : Nat) (d : connection.AnchoreInfo)
    (quiet dryRun metadata : Bool) (cluster : String) :
    handleReportCalls (clusterUnit w clock d quiet dryRun metadata cluster) =
      (if len (GetInventoryReportForCluster w clock cluster metadata).report.Containers ≠ 0
        then [(GetInventoryReportForCluster w clock cluster metadata).report] else []) := by
  have h1 := (GetInventoryReportForCluster_events w clock cluster metadata).1
  unfold clusterUnit
  simp only []
  split
  · have h2 := HandleReport_events w
      (GetInventoryReportForCluster w clock cluster metadata).report d quiet dryRun
    simp only [handleReportCalls_append, handleReportCalls_cons, h1, h2]
    repeat' split
    all_goals simp [handleReportCalls_cons, handleReportCalls_nil]
  · simp only [handleReportCalls_append, h1]
    split <;> simp [handleReportCalls_cons, handleReportCalls_nil]

/-- C7: once the credential check and the cluster listing have succeeded,
`GetInventoryReportsForRegion` returns nil whatever the clusters' fetches and dispatches give;
there is one unit per cluster; the unit of a cluster enters `HandleReport` exactly once, with that
cluster's own report, when its fetch succeeded with a container, and not at all otherwise; a
fetch that returns an error returns the zero `Report` with it; and what a unit dispatches is the
same in every world that answers that cluster's reads alike, whatever the other clusters get. -/
theorem region_units_isolated (w : World) (clock : Nat) (region : String)
    (d : connection.AnchoreInfo) (quiet dryRun metadata : Bool) (clusters : List String)
    (hcred : w.checkAWSCredentials region = none)
    (hlist : w.fetchClusters region = .ok clusters) :
    (GetInventoryReportsForRegion w clock region d quiet dryRun metadata).err = none ∧
    ((GetInventoryReportsForRegion w clock region d quiet dryRun metadata).units.map
        handleReportCalls =
      clusters.map fun c =>
        let r := GetInventoryReportForCluster w
          (clock + w.cost (.newSession region) + w.cost (.checkAWSCredentials region) +
            w.cost (.fetchClusters region)) c metadata
        if r.err = none ∧ len r.report.Containers ≠ 0 then [r.report] else []) ∧
    (∀ (t : Nat) (c : String), (GetInventoryReportForCluster w t c metadata).err ≠ none →
      (GetInventoryReportForCluster w t c metadata).report = {} ∧
      handleReportCalls (clusterUnit w t d quiet dryRun metadata c) = []) ∧
    (∀ (v : World) (t : Nat) (c : String),
      v.fetchTasksFromCluster c = w.fetchTasksFromCluster c →
      v.fetchServicesFromCluster c = w.fetchServicesFromCluster c →
      v.fetchServicesMetadata c = w.fetchServicesMetadata c →
      v.fetchTasksMetadata c = w.fetchTasksMetadata c →
      v.fetchContainersFromTasks c = w.fetchContainersFromTasks c →
      v.rfc3339 = w.rfc3339 →
      handleReportCalls (clusterUnit v t d quiet dryRun metadata c) =
        handleReportCalls (clusterUnit w t d quiet dryRun metadata c)) := by
  refine ⟨?_, ?_, ?_, ?_⟩
  · simp [GetInventoryReportsForRegion, hcred, hlist]
  · simp only [GetInventoryReportsForRegion, hcred, hlist, List.map_map]
    apply List.map_congr_left
    intro c _
    simp only [Function.comp, clusterUnit_handleReportCalls]
    by_cases he : (GetInventoryReportForCluster w
        (clock + w.cost (.newSession region) + w.cost (.checkAWSCredentials region) +
          w.cost (.fetchClusters region)) c metadata).err = none
    · simp [he]
    · have h0 := GetInventoryReportForCluster_error_report w _ c metadata he
      simp [he, h0, len]
  · intro t c he
    have h0 := GetInventoryReportForCluster_error_report w t c metadata he
    refine ⟨h0, ?_⟩
    rw [clusterUnit_handleReportCalls, h0]
    simp [len]
  · intro v t c h1 h2 h3 h4 h5 h6
    have h := GetInventoryReportForCluster_reads w v t c metadata h1 h2 h3 h4 h5 h6
    rw [clusterUnit_handleReportCalls, clusterUnit_handleReportCalls, h.1]

/-- C7 at a region of three clusters, of which one fails and one is empty: only the first is
dispatched. -/
theorem region_units_isolated_witness :
    (GetInventoryReportsForRegion (world accepted) 0 "us-west-2" target false false false).err
      = none ∧
    (GetInventoryReportsForRegion (world accepted) 0 "us-west-2" target false false false).units.map
        handleReportCalls =
      [[{ Timestamp := "2023-05-01T10:00:03Z", ClusterName := "alpha",
          Containers := some [nginx] }], [], []] := by
  have h := region_units_isolated (world accepted) 0 "us-west-2" target false false false
    ["alpha", "beta", "gamma"] rfl rfl
  refine ⟨h.1, ?_⟩
  rw [h.2.1]
  decide

/-- What the goroutine of one cluster delivers and prints when the report has no container:
nothing. -/
theorem clusterUnit_empty (w : World) (clock : Nat) (d : connection.AnchoreInfo)
    (quiet dryRun metadata : Bool) (cluster : String)
    (h : len (GetInventoryReportForCluster w clock cluster metadata).report.Containers = 0) :
    postCalls (clusterUnit w clock d quiet dryRun metadata cluster) = [] ∧
    stdoutWrites (clusterUnit w clock d quiet dryRun metadata cluster) = [] := by
  have h1 := GetInventoryReportForCluster_events w clock cluster metadata
  unfold clusterUnit
  simp only [h, ne_eq, not_true_eq_false, if_false, postCalls_append, stdoutWrites_append,
    h1.2.1, h1.2.2]
  split <;> simp [postCalls_cons, postCalls_nil, stdoutWrites_cons, stdoutWrites_nil]

/-- C8: for a cluster whose task listing succeeds with no task, with the metadata flag on or
off, the returned report has no container, neither the container fetch nor the task-metadata
fetch is made, and the cluster's goroutine does not enter `HandleReport`: nothing is delivered
and nothing is printed.  With metadata off the call returns no error and a report that bears the
cluster's name. -/
theorem zero_tasks_report_dropped (w : World) (clock : Nat) (d : connection.AnchoreInfo)
    (quiet dryRun metadata : Bool) (cluster : String) (tasks : List String)
    (htasks : w.fetchTasksFromCluster cluster = .ok tasks) (hzero : tasks.length = 0) :
    (GetInventoryReportForCluster w clock cluster metadata).report.Containers = none ∧
    len (GetInventoryReportForCluster w clock cluster metadata).report.Containers = 0 ∧
    (GetInventoryReportForCluster w clock cluster metadata).events.all
      (fun e => !isFetchContainers e && !isFetchTasksMetadata e) = true ∧
    handleReportCalls (clusterUnit w clock d quiet dryRun metadata cluster) = [] ∧
    postCalls (clusterUnit w clock d quiet dryRun metadata cluster) = [] ∧
    stdoutWrites (clusterUnit w clock d quiet dryRun metadata cluster) = [] ∧
    (GetInventoryReportForCluster w clock cluster false).err = none ∧
    (GetInventoryReportForCluster w clock cluster false).report.ClusterName = cluster := by
  have hc : (GetInventoryReportForCluster w clock cluster metadata).report.Containers = none := by
    simp only [GetInventoryReportForCluster, tasksBlock, Progress.call, Progress.log,
      Progress.fail, htasks, hzero]
    repeat' split
    all_goals simp_all
  have hl : len (GetInventoryReportForCluster w clock cluster metadata).report.Containers = 0 := by
    rw [hc]; rfl
  refine ⟨hc, hl, ?_, ?_, (clusterUnit_empty w clock d quiet dryRun metadata cluster hl).1,
    (clusterUnit_empty w clock d quiet dryRun metadata cluster hl).2, ?_, ?_⟩
  · simp only [GetInventoryReportForCluster, tasksBlock, Progress.call, Progress.log,
      Progress.fail, htasks, hzero]
    repeat' split
    all_goals simp_all [isFetchContainers, isFetchTasksMetadata]
  · rw [clusterUnit_handleReportCalls, hl]
    simp
  · simp [GetInventoryReportForCluster, tasksBlock, Progress.call, Progress.log, htasks, hzero]
  · simp [GetInventoryReportForCluster, tasksBlock, Progress.call, Progress.log, htasks, hzero]

/-- C8 at the cluster `gamma`, which runs no task. -/
theorem zero_tasks_report_dropped_witness :
    (GetInventoryReportForCluster (world accepted) 0 "gamma" true).report.Containers = none ∧
    handleReportCalls (clusterUnit (world accepted) 0 target false false true "gamma") = [] ∧
    (GetInventoryReportForCluster (world accepted) 0 "gamma" false).err = none :=
  have h := zero_tasks_report_dropped (world accepted) 0 target false false true "gamma" []
    rfl rfl
  ⟨h.1, h.2.2.2.1, h.2.2.2.2.2.2.1⟩

/-- C9: with the metadata flag off, the report of `GetInventoryReportForCluster` has nil `Tasks`
and nil `Services`; the service listing, the service-metadata fetch and the task-metadata fetch
are not made; and the report and the error are the same in every world that answers the task
listing and the container fetch of that cluster alike, whatever the other three reads answer. -/
theorem no_metadata_without_flag (w : World) (clock : Nat) (cluster : String) :
    (GetInventoryReportForCluster w clock cluster false).report.Tasks = none ∧
    (GetInventoryReportForCluster w clock cluster false).report.Services = none ∧
    (GetInventoryReportForCluster w clock cluster false).events.all
      (fun e => !isFetchServices e && !isFetchServicesMetadata e && !isFetchTasksMetadata e)
      = true ∧
    (∀ v : World,
      v.fetchTasksFromCluster cluster = w.fetchTasksFromCluster cluster →
      v.fetchContainersFromTasks cluster = w.fetchContainersFromTasks cluster →
      v.rfc3339 = w.rfc3339 →
      (GetInventoryReportForCluster v clock cluster false).report =
        (GetInventoryReportForCluster w clock cluster false).report ∧
      (GetInventoryReportForCluster v clock cluster false).err =
        (GetInventoryReportForCluster w clock cluster false).err) := by
  refine ⟨?_, ?_, ?_, ?_⟩
  · simp only [GetInventoryReportForCluster, tasksBlock, containersBlock, Progress.call,
      Progress.log, Progress.fail]
    repeat' split
    all_goals simp_all
  · simp only [GetInventoryReportForCluster, tasksBlock, containersBlock, Progress.call,
      Progress.log, Progress.fail]
    repeat' split
    all_goals simp_all
  · simp only [GetInventoryReportForCluster, tasksBlock, containersBlock, Progress.call,
      Progress.log, Progress.fail]
    repeat' split
    all_goals simp_all [isFetchServices, isFetchServicesMetadata, isFetchTasksMetadata]
  · intro v h1 h5 h6
    simp only [GetInventoryReportForCluster, tasksBlock, containersBlock, Progress.call,
      Progress.log, Progress.fail, h1, h5, h6]
    repeat' split
    all_goals simp_all

/-- C10, as stated, fails: in a world where every call takes a second, the report of cluster
`alpha` is stamped with the reading taken on entry (10:00:00), before the five fetches, while
the fetches complete at 10:00:05. -/
theorem timestamp_not_read_after_fetches :
    (GetInventoryReportForCluster (world accepted) 0 "alpha" true).err = none ∧
    (GetInventoryReportForCluster (world accepted) 0 "alpha" true).report.Timestamp =
      "2023-05-01T10:00:00Z" ∧
    (GetInventoryReportForCluster (world accepted) 0 "alpha" true).clock = 5 ∧
    (world accepted).rfc3339 (GetInventoryReportForCluster (world accepted) 0 "alpha" true).clock =
      "2023-05-01T10:00:05Z" ∧
    (GetInventoryReportForCluster (world accepted) 0 "alpha" true).report.Timestamp ≠
      (world accepted).rfc3339
        (GetInventoryReportForCluster (world accepted) 0 "alpha" true).clock ∧
    (GetInventoryReportForCluster (world accepted) 0 "alpha" true).events =
      [.log .Debug "Found cluster", .now, .fetchTasksFromCluster "alpha",
        .fetchServicesFromCluster "alpha", .fetchServicesMetadata "alpha" ["svc-1"],
        .log .Debug "Found tasks in cluster", .fetchTasksMetadata "alpha" ["task-1"],
        .fetchContainersFromTasks "alpha" ["task-1"],
        .log .Info "Found containers in cluster"] := by
  decide

/-- C10, amended: the `Timestamp` of a report that `GetInventoryReportForCluster` returns without
error is the clock reading taken on entry to the call, before the task listing and every other
fetch; the clock is read once, as the second thing the call does, and the task listing comes
right after it; the fetches end no earlier than that reading. -/
theorem timestamp_read_on_entry (w : World) (clock : Nat) (cluster : String) (metadata : Bool) :
    (GetInventoryReportForCluster w clock cluster metadata).report.Timestamp =
      (if (GetInventoryReportForCluster w clock cluster metadata).err = none
        then w.rfc3339 clock else "") ∧
    (GetInventoryReportForCluster w clock cluster metadata).events.take 3 =
      [.log .Debug "Found cluster", .now, .fetchTasksFromCluster cluster] ∧
    (GetInventoryReportForCluster w clock cluster metadata).events.count .now = 1 ∧
    clock ≤ (GetInventoryReportForCluster w clock cluster metadata).clock := by
  refine ⟨?_, ?_, ?_, ?_⟩
  all_goals
    simp only [GetInventoryReportForCluster, tasksBlock, containersBlock, Progress.call,
      Progress.log, Progress.fail]
    repeat' split
  all_goals first
    | omega
    | (simp_all; done)
    | (simp only []; omega)

end Theorems

/-! ## Theorems on `buildURL` -/

section URLLemmas

open url url.encoding shape

theorem Cut_of_not_mem (s : GoString) (sep : Nat) (h : sep ∉ s) :
    strings.Cut s sep = (s, [], false) := by
  induction s with
  | nil => rfl
  | cons c cs ih =>
    have hc : c ≠ sep := fun e => h (by simp [e])
    have hcs : sep ∉ cs := fun e => h (by simp [e])
    simp [strings.Cut, hc, ih hcs]

theorem Cut_append_sep (a b : GoString) (sep : Nat) (h : sep ∉ a) :
    strings.Cut (a ++ sep :: b) sep = (a, b, true) := by
  induction a with
  | nil => simp [strings.Cut]
  | cons c cs ih =>
    have hc : c ≠ sep := fun e => h (by simp [e])
    have hcs : sep ∉ cs := fun e => h (by simp [e])
    simp [strings.Cut, hc, ih hcs]

theorem LastIndex_of_not_mem (s : GoString) (sep : Nat) (h : sep ∉ s) :
    strings.LastIndex s sep = none := by
  induction s with
  | nil => rfl
  | cons c cs ih =>
    have hc : c ≠ sep := fun e => h (by simp [e])
    have hcs : sep ∉ cs := fun e => h (by simp [e])
    simp [strings.LastIndex, hc, ih hcs]

theorem LastIndex_append_sep (a b : GoString) (sep : Nat) (h : sep ∉ b) :
    strings.LastIndex (a ++ sep :: b) sep = some a.length := by
  induction a with
  | nil => simp [strings.LastIndex, LastIndex_of_not_mem b sep h]
  | cons c cs ih => simp [strings.LastIndex, ih]

theorem Index_byte_of_not_mem (s : GoString) (sep : Nat) (h : sep ∉ s) :
    strings.Index s [sep] = none := by
  induction s with
  | nil => rfl
  | cons c cs ih =>
    have hc : sep ≠ c := fun e => h (by simp [e])
    have hcs : sep ∉ cs := fun e => h (by simp [e])
    simp [strings.Index, List.isPrefixOf, hc, ih hcs]

theorem Index_byte_append (a b : GoString) (sep : Nat) (h : sep ∉ a) :
    strings.Index (a ++ sep :: b) [sep] = some a.length := by
  induction a with
  | nil => simp [strings.Index, List.isPrefixOf]
  | cons c cs ih =>
    have hc : sep ≠ c := fun e => h (by simp [e])
    have hcs : sep ∉ cs := fun e => h (by simp [e])
    simp [strings.Index, List.isPrefixOf, hc, ih hcs]

theorem HasSuffix_byte_of_not_mem (s : GoString) (sep : Nat) (h : sep ∉ s) :
    strings.HasSuffix s [sep] = false := by
  rw [Bool.eq_false_iff]
  intro hs
  have := List.isSuffixOf_iff_suffix.mp hs
  exact h (this.subset (by simp))


theorem getSchemeLoop_scheme (raw : GoString) (s rest : GoString) (i : Nat) (hi : 0 < i)
    (hs : ∀ c ∈ s, isSchemeByte c = true) :
    getSchemeLoop raw i (s ++ 58 :: rest) =
      .ok (raw.take (i + s.length), raw.drop (i + s.length + 1)) := by
  induction s generalizing i with
  | nil =>
    have h0 : i ≠ 0 := by omega
    simp [getSchemeLoop, isAlpha, isDigit, h0]
  | cons c cs ih =>
    have hc : isSchemeByte c = true := hs c (by simp)
    have hcs : ∀ d ∈ cs, isSchemeByte d = true := fun d hd => hs d (by simp [hd])
    have h0 : i ≠ 0 := by omega
    have step : getSchemeLoop raw i (c :: (cs ++ 58 :: rest)) =
        getSchemeLoop raw (i + 1) (cs ++ 58 :: rest) := by
      by_cases ha : isAlpha c = true
      · simp [getSchemeLoop, ha]
      · have hd : (isDigit c || c == 43 || c == 45 || c == 46) = true := by
          simp only [isSchemeByte, Bool.or_assoc] at hc
          simp only [Bool.not_eq_true] at ha
          simpa [ha, Bool.or_assoc] using hc
        simp [getSchemeLoop, ha, hd, h0]
    rw [List.cons_append, step, ih (i + 1) (by omega) hcs]
    simp only [List.length_cons]
    have e1 : i + 1 + cs.length = i + (cs.length + 1) := by omega
    rw [e1]

theorem getScheme_scheme (s rest : GoString) (hs : isScheme s = true) :
    getScheme (s ++ 58 :: rest) = .ok (s, rest) := by
  cases s with
  | nil => simp [isScheme] at hs
  | cons c cs =>
    simp only [isScheme, Bool.and_eq_true, List.all_eq_true] at hs
    have h := getSchemeLoop_scheme (c :: cs ++ 58 :: rest) cs rest 1 (by omega) hs.2
    rw [List.cons_append] at h
    have h0 : getScheme (c :: cs ++ 58 :: rest) =
        getSchemeLoop (c :: (cs ++ 58 :: rest)) 1 (cs ++ 58 :: rest) := by
      simp [getScheme, getSchemeLoop, hs.1]
    rw [h0, h]
    have e1 : (c :: (cs ++ 58 :: rest)).take (1 + cs.length) = c :: cs := by
      rw [Nat.add_comm, List.take_succ_cons, List.take_left']
      rfl
    have e2 : (c :: (cs ++ 58 :: rest)).drop (1 + cs.length + 1) = rest := by
      have : 1 + cs.length + 1 = (cs.length + 1) + 1 := by omega
      rw [this, List.drop_succ_cons]
      have h3 : cs ++ 58 :: rest = (cs ++ [58]) ++ rest := by simp
      rw [h3, List.drop_left']
      simp
    rw [e1, e2]

theorem ToLower_of_isLower (s : GoString) (h : isLower s = true) : strings.ToLower s = s := by
  induction s with
  | nil => rfl
  | cons c cs ih =>
    simp only [isLower, List.all_cons, Bool.and_eq_true] at h
    have hc : ¬ (65 ≤ c ∧ c ≤ 90) := by
      have := h.1
      simp at this
      omega
    have := ih (by simpa [isLower] using h.2)
    simp only [strings.ToLower] at this ⊢
    simp [hc, this]


theorem isUnreserved_cases (c : Nat) (h : isUnreserved c = true) :
    (97 ≤ c ∧ c ≤ 122) ∨ (65 ≤ c ∧ c ≤ 90) ∨ (48 ≤ c ∧ c ≤ 57) ∨
      c = 45 ∨ c = 46 ∨ c = 95 ∨ c = 126 := by
  simp [isUnreserved, isAlpha, isDigit] at h
  omega

theorem isSchemeByte_cases (c : Nat) (h : isSchemeByte c = true) :
    (97 ≤ c ∧ c ≤ 122) ∨ (65 ≤ c ∧ c ≤ 90) ∨ (48 ≤ c ∧ c ≤ 57) ∨
      c = 43 ∨ c = 45 ∨ c = 46 := by
  simp [isSchemeByte, isAlpha, isDigit] at h
  omega

theorem isDigit_cases (c : Nat) (h : isDigit c = true) : 48 ≤ c ∧ c ≤ 57 := by
  simp [isDigit] at h
  omega

theorem shouldEscape_of_isUnreserved (c : Nat) (mode : encoding) (h : isUnreserved c = true) :
    shouldEscape c mode = false := by
  by_cases ha : (isAlpha c || isDigit c) = true
  · simp [shouldEscape, ha]
  · have hm : c = 45 ∨ c = 46 ∨ c = 95 ∨ c = 126 := by
      simp only [isUnreserved, Bool.or_eq_true, beq_iff_eq] at h
      simp only [Bool.or_eq_true, not_or] at ha
      rcases h with ((((h | h) | h) | h) | h) | h
      · exact absurd h ha.1
      · exact absurd h ha.2
      · exact Or.inl h
      · exact Or.inr (Or.inl h)
      · exact Or.inr (Or.inr (Or.inl h))
      · exact Or.inr (Or.inr (Or.inr h))
    rcases hm with rfl | rfl | rfl | rfl <;> cases mode <;> decide

theorem shouldEscape_of_isDigit (c : Nat) (mode : encoding) (h : isDigit c = true) :
    shouldEscape c mode = false := by
  simp [shouldEscape, h]

theorem shouldEscape_space (mode : encoding) : shouldEscape 32 mode = true := by
  cases mode <;> decide

theorem unescapeScan_plain (mode : encoding) (s : GoString) (n : Nat) (hasPlus : Bool)
    (h : ∀ c ∈ s, c ≠ 37 ∧ c ≠ 43 ∧
      ((mode = encodeHost ∨ mode = encodeZone) → shouldEscape c encodeHost = false)) :
    unescapeScan mode s n hasPlus = .ok (n, hasPlus) := by
  induction s with
  | nil => rfl
  | cons c cs ih =>
    have hc := h c (by simp)
    have hcs := ih (fun d hd => h d (by simp [hd]))
    unfold unescapeScan
    by_cases hm : mode = encodeHost ∨ mode = encodeZone
    · simp [hc.1, hc.2.1, hc.2.2 hm, hcs]
    · simp [hc.1, hc.2.1, hm, hcs]

theorem unescape_plain (mode : encoding) (s : GoString)
    (h : ∀ c ∈ s, c ≠ 37 ∧ c ≠ 43 ∧
      ((mode = encodeHost ∨ mode = encodeZone) → shouldEscape c encodeHost = false)) :
    unescape s mode = .ok s := by
  simp [unescape, unescapeScan_plain mode s 0 false h]

theorem escape_plain (mode : encoding) (s : GoString)
    (h : ∀ c ∈ s, shouldEscape c mode = false) : escape s mode = s := by
  induction s with
  | nil => rfl
  | cons c cs ih =>
    have hc := h c (by simp)
    have hcs := ih (fun d hd => h d (by simp [hd]))
    have h32 : ¬ (c = 32 ∧ mode = encodeQueryComponent) := by
      rintro ⟨rfl, _⟩
      rw [shouldEscape_space] at hc
      exact absurd hc (by decide)
    simp only [escape] at hcs ⊢
    simp [List.flatMap_cons, h32, hc, hcs]


theorem isUnreserved_of_isDigit (c : Nat) (h : isDigit c = true) : isUnreserved c = true := by
  simp [isUnreserved, h]

theorem shouldEscape_host_byte (c : Nat) (h : isUnreserved c = true ∨ c = 58) :
    shouldEscape c encodeHost = false := by
  rcases h with h | rfl
  · exact shouldEscape_of_isUnreserved c _ h
  · decide

theorem shouldEscape_path_byte (c : Nat) (h : isUnreserved c = true ∨ c = 47) :
    shouldEscape c encodePath = false := by
  rcases h with h | rfl
  · exact shouldEscape_of_isUnreserved c _ h
  · decide

/-- The bytes of a host name with an optional port. -/
theorem host_bytes (name port : GoString) (hn : isHostName name = true)
    (hp : isPort port = true) : ∀ c ∈ name ++ port, isUnreserved c = true ∨ c = 58 := by
  intro c hc
  simp only [isHostName, Bool.and_eq_true, List.all_eq_true] at hn
  rcases List.mem_append.mp hc with h | h
  · exact Or.inl (hn.2 c h)
  · cases port with
    | nil => simp at h
    | cons p ds =>
      simp only [isPort, Bool.and_eq_true, beq_iff_eq, List.all_eq_true] at hp
      rcases List.mem_cons.mp h with rfl | h
      · exact Or.inr hp.1
      · exact Or.inl (isUnreserved_of_isDigit c (hp.2 c h))

/-- The bytes of a path. -/
theorem path_bytes (path : GoString) (hp : isPath path = true) :
    ∀ c ∈ path, isUnreserved c = true ∨ c = 47 := by
  intro c hc
  cases path with
  | nil => simp at hc
  | cons p cs =>
    simp only [isPath, Bool.and_eq_true, beq_iff_eq, List.all_eq_true, Bool.or_eq_true] at hp
    rcases List.mem_cons.mp hc with rfl | h
    · exact Or.inr hp.1
    · exact hp.2 c h

theorem not_mem_of_forall {l : GoString} {P : Nat → Prop} (h : ∀ c ∈ l, P c) {x : Nat}
    (hx : ¬ P x) : x ∉ l :=
  fun hm => hx (h x hm)

theorem validOptionalPort_of_isPort (port : GoString) (hp : isPort port = true) :
    validOptionalPort port = true := by
  cases port with
  | nil => rfl
  | cons p ds =>
    simp only [isPort, Bool.and_eq_true, beq_iff_eq, List.all_eq_true] at hp
    simp only [validOptionalPort, Bool.and_eq_true, beq_iff_eq, List.all_eq_true]
    refine ⟨hp.1, fun b hb => ?_⟩
    have := isDigit_cases b (hp.2 b hb)
    simp
    omega

theorem parseHost_plain (name port : GoString) (hn : isHostName name = true)
    (hp : isPort port = true) : parseHost (name ++ port) = .ok (name ++ port) := by
  have hb := host_bytes name port hn hp
  have hplain : unescape (name ++ port) encodeHost = .ok (name ++ port) := by
    apply unescape_plain
    intro c hc
    have h1 := hb c hc
    refine ⟨?_, ?_, fun _ => shouldEscape_host_byte c h1⟩
    · rcases h1 with h | h
      · have := isUnreserved_cases c h; omega
      · omega
    · rcases h1 with h | h
      · have := isUnreserved_cases c h; omega
      · omega
  have hname : ∀ c ∈ name, isUnreserved c = true := by
    simp only [isHostName, Bool.and_eq_true, List.all_eq_true] at hn
    exact hn.2
  have hpre : strings.HasPrefix (name ++ port) [91] = false := by
    cases name with
    | nil => simp [isHostName] at hn
    | cons c cs =>
      have := isUnreserved_cases c (hname c (by simp))
      have hc : (91 : Nat) ≠ c := by omega
      simp [strings.HasPrefix, List.isPrefixOf, hc]
  have h58 : (58 : Nat) ∉ name :=
    not_mem_of_forall hname (fun h => by have := isUnreserved_cases 58 h; omega)
  unfold parseHost
  simp only [hpre, hplain]
  cases port with
  | nil =>
    simp [LastIndex_of_not_mem _ 58 h58]
  | cons p ds =>
    simp only [isPort, Bool.and_eq_true, beq_iff_eq, List.all_eq_true] at hp
    obtain ⟨rfl, hds⟩ := hp
    have hd58 : (58 : Nat) ∉ ds :=
      not_mem_of_forall hds (fun h => by have := isDigit_cases 58 h; omega)
    have hv := validOptionalPort_of_isPort (58 :: ds) (by simp [isPort]; exact hds)
    simp [LastIndex_append_sep name ds 58 hd58, hv]

theorem parseAuthority_plain (name port : GoString) (hn : isHostName name = true)
    (hp : isPort port = true) : parseAuthority (name ++ port) = .ok (none, name ++ port) := by
  have hb := host_bytes name port hn hp
  have h64 : (64 : Nat) ∉ name ++ port :=
    not_mem_of_forall hb (fun h => by
      rcases h with h | h
      · have := isUnreserved_cases 64 h; omega
      · omega)
  simp [parseAuthority, LastIndex_of_not_mem _ 64 h64, parseHost_plain name port hn hp]

theorem setPath_plain (u : URL) (path : GoString) (hp : isPath path = true) :
    URL.setPath u path = .ok { u with Path := path, RawPath := [] } := by
  have hb := path_bytes path hp
  have h1 : unescape path encodePath = .ok path := by
    apply unescape_plain
    intro c hc
    have h1 := hb c hc
    refine ⟨?_, ?_, fun h => by rcases h with h | h <;> cases h⟩
    · rcases h1 with h | h
      · have := isUnreserved_cases c h; omega
      · omega
    · rcases h1 with h | h
      · have := isUnreserved_cases c h; omega
      · omega
  have h2 : escape path encodePath = path :=
    escape_plain _ _ (fun c hc => shouldEscape_path_byte c (hb c hc))
  simp [URL.setPath, h1, h2]


theorem scheme_bytes (s : GoString) (hs : isScheme s = true) :
    s ≠ [] ∧ ∀ c ∈ s, isSchemeByte c = true := by
  cases s with
  | nil => simp [isScheme] at hs
  | cons c cs =>
    simp only [isScheme, Bool.and_eq_true, List.all_eq_true] at hs
    refine ⟨by simp, fun d hd => ?_⟩
    rcases List.mem_cons.mp hd with rfl | h
    · simp [isSchemeByte, hs.1]
    · exact hs.2 d h

theorem query_bytes (query : Option GoString) (hq : isOptQuery query = true) :
    ∀ c ∈ queryText query, 32 ≤ c ∧ c ≠ 127 ∧ c ≠ 35 := by
  intro c hc
  cases query with
  | none => simp [queryText] at hc
  | some q =>
    simp only [isOptQuery, isQuery, List.all_eq_true, Bool.and_eq_true, decide_eq_true_eq,
      bne_iff_ne] at hq
    rcases List.mem_cons.mp hc with rfl | h
    · omega
    · exact ⟨(hq c h).1.1, (hq c h).1.2, (hq c h).2⟩

/-- The query step of `parse`: the text before the first `?` is kept as the rest, the text
after it is the raw query, and a lone trailing `?` sets `ForceQuery`. -/
theorem split_query (base : GoString) (query : Option GoString) (s : GoString)
    (h63 : (63 : Nat) ∉ base) :
    (if (strings.HasSuffix (base ++ queryText query) [63] &&
          strings.Count (base ++ queryText query) 63 == 1) = true then
        (({ Scheme := s, ForceQuery := true } : URL),
          (base ++ queryText query).take ((base ++ queryText query).length - 1))
      else
        (({ Scheme := s, RawQuery := (strings.Cut (base ++ queryText query) 63).2.1 } : URL),
          (strings.Cut (base ++ queryText query) 63).1)) =
      (({ Scheme := s, ForceQuery := decide (query = some []), RawQuery := query.getD [] } : URL),
        base) := by
  cases query with
  | none =>
    simp [queryText, HasSuffix_byte_of_not_mem base 63 h63, Cut_of_not_mem base 63 h63]
  | some q =>
    have hcount : strings.Count (base ++ 63 :: q) 63 = 1 + q.count 63 := by
      simp [strings.Count, List.count_append, List.count_eq_zero_of_not_mem h63, Nat.add_comm]
    have hcut := Cut_append_sep base q 63 h63
    cases q with
    | nil =>
      have hsuf : strings.HasSuffix (base ++ [63]) [63] = true := by
        simp [strings.HasSuffix]
      simp [queryText, hsuf, strings.Count, List.count_append,
        List.count_eq_zero_of_not_mem h63]
    | cons a r =>
      have hne : ¬ ((strings.HasSuffix (base ++ 63 :: a :: r) [63] &&
          strings.Count (base ++ 63 :: a :: r) 63 == 1) = true) := by
        simp only [Bool.and_eq_true, beq_iff_eq, not_and]
        intro hsuf hc
        rw [hcount] at hc
        have h0 : (a :: r).count 63 = 0 := by omega
        have hnm : (63 : Nat) ∉ a :: r := List.count_eq_zero.mp h0
        have hsfx := List.isSuffixOf_iff_suffix.mp hsuf
        obtain ⟨t, ht⟩ := hsfx
        have hl : (base ++ 63 :: a :: r).getLast? = some 63 := by
          rw [← ht]; simp
        have hl2 : (base ++ 63 :: a :: r).getLast? = (a :: r).getLast? := by
          have : base ++ 63 :: a :: r = (base ++ [63]) ++ (a :: r) := by simp
          rw [this, List.getLast?_append_of_ne_nil _ (by simp)]
        rw [hl2] at hl
        exact hnm (List.mem_of_getLast?_eq_some hl)
      simp only [queryText, hne, if_false, hcut]
      simp


theorem ToLower_ne_nil (s : GoString) (h : s ≠ []) : strings.ToLower s ≠ [] := by
  cases s with
  | nil => exact absurd rfl h
  | cons c cs => simp [strings.ToLower]

/-- No byte of a URL of the shape at hand is a control byte or `#`. -/
theorem url_bytes (scheme name port path : GoString) (query : Option GoString)
    (hs : isScheme scheme = true) (hn : isHostName name = true) (hp : isPort port = true)
    (hpath : isPath path = true) (hq : isOptQuery query = true) :
    ∀ c ∈ scheme ++ 58 :: 47 :: 47 :: (name ++ port ++ path ++ queryText query),
      32 ≤ c ∧ c ≠ 127 ∧ c ≠ 35 := by
  intro c hc
  simp only [List.mem_append, List.mem_cons] at hc
  rcases hc with h | rfl | rfl | rfl | ((h | h) | h)
  · have := isSchemeByte_cases c ((scheme_bytes scheme hs).2 c h); omega
  · omega
  · omega
  · omega
  · rcases h with h | h
    · rcases host_bytes name port hn hp c (List.mem_append.mpr (Or.inl h)) with h | h
      · have := isUnreserved_cases c h; omega
      · omega
    · rcases host_bytes name port hn hp c (List.mem_append.mpr (Or.inr h)) with h | h
      · have := isUnreserved_cases c h; omega
      · omega
  · rcases path_bytes path hpath c h with h | h
    · have := isUnreserved_cases c h; omega
    · omega
  · exact query_bytes query hq c h

/-- What `parse` makes of `scheme://name[:port][/path][?query]`. -/
theorem parse_plain (scheme name port path : GoString) (query : Option GoString)
    (hs : isScheme scheme = true) (hn : isHostName name = true) (hp : isPort port = true)
    (hpath : isPath path = true) (hq : isOptQuery query = true) :
    parse (scheme ++ 58 :: 47 :: 47 :: (name ++ port ++ path ++ queryText query)) false =
      .ok { Scheme := strings.ToLower scheme, Host := name ++ port, Path := path,
            ForceQuery := decide (query = some []), RawQuery := query.getD [] } := by
  have hbytes := url_bytes scheme name port path query hs hn hp hpath hq
  have hctl : stringContainsCTLByte
      (scheme ++ 58 :: 47 :: 47 :: (name ++ port ++ path ++ queryText query)) = false := by
    rw [Bool.eq_false_iff]
    intro h
    simp only [stringContainsCTLByte, List.any_eq_true, Bool.or_eq_true, decide_eq_true_eq,
      beq_iff_eq] at h
    obtain ⟨b, hb, h⟩ := h
    have := hbytes b hb
    omega
  have hsne := (scheme_bytes scheme hs).1
  have hstar : scheme ++ 58 :: 47 :: 47 :: (name ++ port ++ path ++ queryText query) ≠ [42] := by
    intro h
    have := congrArg List.length h
    simp at this
    omega
  have hsch := getScheme_scheme scheme
    (47 :: 47 :: (name ++ port ++ path ++ queryText query)) hs
  have hhost := host_bytes name port hn hp
  have hpb := path_bytes path hpath
  have h63 : (63 : Nat) ∉ 47 :: 47 :: (name ++ port ++ path) := by
    intro h
    simp only [List.mem_cons, List.mem_append] at h
    rcases h with h | h | h
    · omega
    · omega
    · rcases h with h | h
      · rcases hhost 63 (List.mem_append.mpr h) with h | h
        · have := isUnreserved_cases 63 h; omega
        · omega
      · rcases hpb 63 h with h | h
        · have := isUnreserved_cases 63 h; omega
        · omega
  have hsplit := split_query (47 :: 47 :: (name ++ port ++ path)) query
    (strings.ToLower scheme) h63
  have hrest : 47 :: 47 :: (name ++ port ++ path ++ queryText query) =
      (47 :: 47 :: (name ++ port ++ path)) ++ queryText query := by simp
  have h47 : (47 : Nat) ∉ name ++ port :=
    not_mem_of_forall hhost (fun h => by
      rcases h with h | h
      · have := isUnreserved_cases 47 h; omega
      · omega)
  have hlow := ToLower_ne_nil scheme hsne
  have hauth := parseAuthority_plain name port hn hp
  unfold parse
  simp only [hctl, hstar, hsch, Bool.false_eq_true, if_false, false_and, and_false]
  rw [hrest, hsplit]
  simp only [strings.HasPrefix, List.isPrefixOf, List.cons_append, beq_self_eq_true,
    Bool.true_and, Bool.not_true, Bool.false_eq_true, false_and, if_false, ne_eq, hlow,
    not_false_eq_true, true_or, true_and, if_true, List.drop_succ_cons, List.drop_zero]
  cases path with
  | nil =>
    simp only [List.append_nil, Index_byte_of_not_mem _ 47 h47, hauth]
    exact setPath_plain _ [] rfl
  | cons p ps =>
    have hp47 : p = 47 := by
      simp only [isPath, Bool.and_eq_true, beq_iff_eq] at hpath
      exact hpath.1
    subst hp47
    simp only [Index_byte_append _ ps 47 h47, List.take_left', List.drop_left', hauth]
    exact setPath_plain _ _ hpath


/-- What `url.Parse` makes of `scheme://name[:port][/path][?query]`. -/
theorem Parse_plain (scheme name port path : GoString) (query : Option GoString)
    (hs : isScheme scheme = true) (hn : isHostName name = true) (hp : isPort port = true)
    (hpath : isPath path = true) (hq : isOptQuery query = true) :
    Parse (scheme ++ 58 :: 47 :: 47 :: (name ++ port ++ path ++ queryText query)) =
      .ok { Scheme := strings.ToLower scheme, Host := name ++ port, Path := path,
            ForceQuery := decide (query = some []), RawQuery := query.getD [] } := by
  have hbytes := url_bytes scheme name port path query hs hn hp hpath hq
  have h35 : (35 : Nat) ∉
      scheme ++ 58 :: 47 :: 47 :: (name ++ port ++ path ++ queryText query) :=
    not_mem_of_forall hbytes (fun h => h.2.2 rfl)
  unfold Parse
  simp only [Cut_of_not_mem _ 35 h35, parse_plain scheme name port path query hs hn hp hpath hq,
    if_true]

/-- The text `(*URL).String` gives for a URL with scheme, host, path and query, the path being
relative (not starting with `/`) or absolute. -/
theorem String_plain (scheme host path query : GoString) (fq : Bool)
    (hs : scheme ≠ []) (hh : host ≠ [])
    (hhost : ∀ c ∈ host, shouldEscape c encodeHost = false)
    (hpath : ∀ c ∈ path, shouldEscape c encodePath = false)
    (hstar : path ≠ [42]) :
    URL.String { Scheme := scheme, Host := host, Path := path, ForceQuery := fq,
                 RawQuery := query } =
      scheme ++ [58, 47, 47] ++ host ++
        (if path ≠ [] ∧ path.head? ≠ some 47 then [47] else []) ++ path ++
        (if fq = true ∨ query ≠ [] then 63 :: query else []) := by
  have h1 : escape host encodeHost = host := escape_plain _ _ hhost
  have h2 : escape path encodePath = path := escape_plain _ _ hpath
  have hep : URL.EscapedPath
      ({ Scheme := scheme, Host := host, Path := path, ForceQuery := fq,
         RawQuery := query } : URL) = path := by
    simp [URL.EscapedPath, hstar, h2]
  unfold URL.String
  simp only [hep]
  simp only [ne_eq, hs, not_false_eq_true, if_true, hh, true_or, or_true, not_true_eq_false,
    if_false, h1, and_true, false_and, and_false]
  by_cases hq : fq = true ∨ query ≠ []
  · simp [hq, hs]
  · simp [hq, hs]


theorem ReportAPIPath_bytes :
    goBytes reporter.ReportAPIPath =
      [118, 49, 47, 101, 110, 116, 101, 114, 112, 114, 105, 115, 101, 47, 101, 99, 115, 45,
        105, 110, 118, 101, 110, 116, 111, 114, 121] := by
  decide

theorem ReportAPIPath_plain :
    ∀ c ∈ goBytes reporter.ReportAPIPath, shouldEscape c encodePath = false := by
  rw [ReportAPIPath_bytes]
  decide

/-- The URL that `buildURL` returns for a target whose URL is
`scheme://name[:port][/path][?query]`: the scheme in lower case, the API path appended to the
path (after a `/` when the path is empty), the query after it. -/
theorem buildURL_plain (T : connection.AnchoreInfo) (scheme name port path : GoString)
    (query : Option GoString)
    (hs : isScheme scheme = true) (hn : isHostName name = true) (hp : isPort port = true)
    (hpath : isPath path = true) (hq : isOptQuery query = true)
    (hURL : goBytes T.URL = scheme ++ goBytes "://" ++ name ++ port ++ path ++ queryText query) :
    reporter.buildURL T =
      .ok (strings.ToLower scheme ++ goBytes "://" ++ name ++ port ++
        (if path = [] then goBytes "/" else []) ++ path ++ goBytes reporter.ReportAPIPath ++
        queryText query) := by
  have hsep : goBytes "://" = [58, 47, 47] := by decide
  have hslash : goBytes "/" = [47] := by decide
  have hraw : goBytes T.URL =
      scheme ++ 58 :: 47 :: 47 :: (name ++ port ++ path ++ queryText query) := by
    rw [hURL, hsep]; simp
  have hP := Parse_plain scheme name port path query hs hn hp hpath hq
  have hsne := ToLower_ne_nil scheme (scheme_bytes scheme hs).1
  have hhost := host_bytes name port hn hp
  have hhne : name ++ port ≠ [] := by
    cases name with
    | nil => simp [isHostName] at hn
    | cons c cs => simp
  have hpb : ∀ c ∈ path ++ goBytes reporter.ReportAPIPath,
      shouldEscape c encodePath = false := by
    intro c hc
    rcases List.mem_append.mp hc with h | h
    · exact shouldEscape_path_byte c (path_bytes path hpath c h)
    · exact ReportAPIPath_plain c h
  have hstar : path ++ goBytes reporter.ReportAPIPath ≠ [42] := by
    intro h
    have := congrArg List.length h
    rw [ReportAPIPath_bytes] at this
    simp at this
  have hS := String_plain (strings.ToLower scheme) (name ++ port)
    (path ++ goBytes reporter.ReportAPIPath) (query.getD []) (decide (query = some []))
    hsne hhne (fun c hc => shouldEscape_host_byte c (hhost c hc)) hpb hstar
  have hq2 : (if decide (query = some []) = true ∨ query.getD [] ≠ []
      then 63 :: query.getD [] else []) = queryText query := by
    rcases query with _ | (_ | ⟨a, r⟩) <;> simp [queryText]
  have hsl : (if path ++ goBytes reporter.ReportAPIPath ≠ [] ∧
      (path ++ goBytes reporter.ReportAPIPath).head? ≠ some 47 then [47] else []) =
      (if path = [] then goBytes "/" else ([] : GoString)) := by
    cases path with
    | nil => rw [ReportAPIPath_bytes, hslash]; simp
    | cons p ps =>
      have hp47 : p = 47 := by
        simp only [isPath, Bool.and_eq_true, beq_iff_eq] at hpath
        exact hpath.1
      subst hp47
      simp
  rw [hq2, hsl] at hS
  unfold reporter.buildURL
  rw [hraw, hP]
  simp only []
  rw [hS, hsep]
  simp


/-- C4, as stated, fails: `HTTPS://ancho.re` is a scheme and a host and nothing else, and
`buildURL` returns it with the scheme in lower case, not the URL as written followed by the API
path; and for the host `ex%41mple.com`, which RFC 3986 allows, it returns an error. -/
theorem buildURL_upper_case_scheme :
    reporter.buildURL (examples.targetAt "HTTPS://ancho.re") =
      .ok (goBytes "https://ancho.re/v1/enterprise/ecs-inventory") ∧
    reporter.buildURL (examples.targetAt "HTTPS://ancho.re") ≠
      .ok (goBytes "HTTPS://ancho.re" ++ goBytes "/v1/enterprise/ecs-inventory") ∧
    reporter.buildURL (examples.targetAt "https://ex%41mple.com") =
      .error { Op := "parse", URL := goBytes "https://ex%41mple.com",
               Err := .EscapeError (goBytes "%41") } := by
  decide

/-- C4, amended: for a target whose URL is `scheme://host`, the host being a name of letters,
digits, `-`, `.`, `_`, `~` with an optional `:port`, and nothing after it, `buildURL` returns no
error and returns that URL, its scheme in lower case, followed by
`/v1/enterprise/ecs-inventory`: exactly the URL as written when the scheme is written in lower
case.  No field other than the URL is read. -/
theorem buildURL_scheme_and_host (T : connection.AnchoreInfo) (scheme name port : GoString)
    (hs : isScheme scheme = true) (hn : isHostName name = true) (hp : isPort port = true)
    (hURL : goBytes T.URL = scheme ++ goBytes "://" ++ name ++ port) :
    reporter.buildURL T =
      .ok (strings.ToLower scheme ++ goBytes "://" ++ name ++ port ++
        goBytes "/v1/enterprise/ecs-inventory") ∧
    (isLower scheme = true →
      reporter.buildURL T = .ok (goBytes T.URL ++ goBytes "/v1/enterprise/ecs-inventory")) ∧
    (∀ (user password account : String) (http : connection.HTTPConfig),
      reporter.buildURL
          { URL := T.URL, User := user, Password := password, Account := account, HTTP := http } =
        reporter.buildURL T) := by
  have h := buildURL_plain T scheme name port [] none hs hn hp rfl rfl
    (by simpa [queryText] using hURL)
  have hapi : goBytes "/v1/enterprise/ecs-inventory" =
      goBytes "/" ++ goBytes reporter.ReportAPIPath := by decide
  have h1 : reporter.buildURL T =
      .ok (strings.ToLower scheme ++ goBytes "://" ++ name ++ port ++
        goBytes "/v1/enterprise/ecs-inventory") := by
    rw [h, hapi]
    simp [queryText]
  refine ⟨h1, fun hl => ?_, fun _ _ _ _ => rfl⟩
  rw [h1, hURL, ToLower_of_isLower scheme hl]

/-- C4 at the URL of the repository's test, `https://ancho.re`. -/
theorem buildURL_scheme_and_host_witness :
    reporter.buildURL examples.target =
      .ok (goBytes "https://ancho.re/v1/enterprise/ecs-inventory") := by
  have h := (buildURL_scheme_and_host examples.target (goBytes "https") (goBytes "ancho.re") []
    (by decide) (by decide) (by decide) (by decide)).1
  rw [h]
  decide

/-- C5, as stated, fails: for the base `https://ancho.re/` `buildURL` returns a single slash
before the API path, not the doubled one of a plain concatenation; and for a base with a query
the API path goes before the query, not after it. -/
theorem buildURL_trailing_slash_not_doubled :
    reporter.buildURL (examples.targetAt "https://ancho.re/") =
      .ok (goBytes "https://ancho.re/v1/enterprise/ecs-inventory") ∧
    reporter.buildURL (examples.targetAt "https://ancho.re/") ≠
      .ok (goBytes "https://ancho.re/" ++ goBytes "/v1/enterprise/ecs-inventory") ∧
    reporter.buildURL (examples.targetAt "https://ancho.re?x=1") =
      .ok (goBytes "https://ancho.re/v1/enterprise/ecs-inventory?x=1") ∧
    reporter.buildURL (examples.targetAt "https://ancho.re?x=1") ≠
      .ok (goBytes "https://ancho.re?x=1" ++ goBytes "/v1/enterprise/ecs-inventory") := by
  decide

/-- C5, amended: for a target whose URL is `scheme://host`, then a path that is empty or runs
from `/` to `/`, then possibly `?` and a query, `buildURL` appends
`v1/enterprise/ecs-inventory` to the path, with a `/` before it only when the path is empty, and
leaves the query after it (the scheme comes back in lower case).  So a base that ends in `/`
gets no second slash, and a fragment stays at the end as a query does.  Paths that do not
close with `/` are left out of the statement. -/
theorem buildURL_appends_to_path (T : connection.AnchoreInfo)
    (scheme name port path : GoString) (query : Option GoString)
    (hs : isScheme scheme = true) (hn : isHostName name = true) (hp : isPort port = true)
    (hpath : isPath path = true) (_hend : path = [] ∨ path.getLast? = some 47)
    (hq : isOptQuery query = true)
    (hURL : goBytes T.URL = scheme ++ goBytes "://" ++ name ++ port ++ path ++ queryText query) :
    reporter.buildURL T =
      .ok (strings.ToLower scheme ++ goBytes "://" ++ name ++ port ++
        (if path = [] then goBytes "/" else []) ++ path ++
        goBytes "v1/enterprise/ecs-inventory" ++ queryText query) ∧
    (isLower scheme = true → path ≠ [] → query = none →
      reporter.buildURL T = .ok (goBytes T.URL ++ goBytes "v1/enterprise/ecs-inventory")) ∧
    reporter.buildURL (examples.targetAt "https://ancho.re#top") =
      .ok (goBytes "https://ancho.re/v1/enterprise/ecs-inventory#top") := by
  have h := buildURL_plain T scheme name port path query hs hn hp hpath hq hURL
  refine ⟨h, fun hl hne hqn => ?_, by decide⟩
  subst hqn
  rw [h, hURL, ToLower_of_isLower scheme hl]
  simp [hne, queryText, reporter.ReportAPIPath]

/-- C5 at the base `https://ancho.re/`: one slash before the API path. -/
theorem buildURL_appends_to_path_witness :
    reporter.buildURL (examples.targetAt "https://ancho.re/") =
      .ok (goBytes "https://ancho.re/v1/enterprise/ecs-inventory") := by
  have h := (buildURL_appends_to_path (examples.targetAt "https://ancho.re/")
    (goBytes "https") (goBytes "ancho.re") [] (goBytes "/") none
    (by decide) (by decide) (by decide) (by decide) (by decide) (by decide) (by decide)).1
  rw [h]
  decide

end URLLemmas

end ECSInventory
